import Mathlib

/-!
# Verification of the tui-morph core pipeline

Shallow embedding of the `tui-morph` crate (solver, color model, plan data
model, interpolator, backend adapter) and proofs of the specification claims.

Conventions of the embedding:
* `f32` scalars are modelled as exact rationals (`ℚ`); decimal literals of the
  source are read as the exact rationals they denote.  Rounding of `f32`
  arithmetic is not modelled; claims that hinge on it are treated separately.
* Transcendental library functions of the Rust standard library (`powf`,
  `cbrt`, `sqrt`, `sin`, `cos`, `atan2`) are external collaborators; they are
  passed in as an explicit dictionary `FloatOps`, so every theorem quantified
  over `FloatOps` holds for any implementation of those externals.
* `std::f32::consts::PI` is the concrete `f32` value, an exact rational.
* Machine integers (`u8`, `u16`) are modelled as `ℕ` with the explicit
  saturating casts the source performs.
-/

-- Batteries seals rational arithmetic; re-open it so that closed statements
-- about the embedded code evaluate by kernel reduction (`decide`).
set_option allowUnsafeReducibility true in
attribute [semireducible] Rat.add Rat.sub Rat.mul Rat.inv Rat.ofScientific

/-- The exact rational value of `std::f32::consts::PI` (the `f32` nearest to π). -/
def PI32 : ℚ := 13176795 / 4194304

/-- Dictionary of the transcendental `f32` operations the source imports from
the Rust standard library (external to this repository). -/
structure FloatOps where
  sqrt : ℚ → ℚ
  cbrt : ℚ → ℚ
  powf : ℚ → ℚ → ℚ
  sin : ℚ → ℚ
  cos : ℚ → ℚ
  atan2 : ℚ → ℚ → ℚ

/-- A concrete instantiation of the external float operations, used to
evaluate closed statements.  Theorems quantified over `FloatOps` do not depend
on these values. -/
def ops0 : FloatOps where
  sqrt := fun _ => 0
  cbrt := fun _ => 0
  powf := fun _ _ => 0
  sin := fun _ => 0
  cos := fun _ => 0
  atan2 := fun _ _ => 0

namespace oklch

/-- `oklch.rs`: Oklch color — lightness, chroma, hue. -/
structure Oklch where
  l : ℚ
  c : ℚ
  h : ℚ
deriving DecidableEq, Repr

/-- `oklch.rs`: Oklab color (internal). -/
structure Oklab where
  l : ℚ
  a : ℚ
  b : ℚ
deriving DecidableEq, Repr

/-- `oklch.rs`: linear RGB (internal). -/
structure LinRgb where
  r : ℚ
  g : ℚ
  b : ℚ
deriving DecidableEq, Repr

/-- `oklch.rs::srgb_to_linear`. -/
def srgb_to_linear (ops : FloatOps) (c : ℚ) : ℚ :=
  if c ≤ 0.04045 then c / 12.92 else ops.powf ((c + 0.055) / 1.055) 2.4

/-- `oklch.rs::linear_to_srgb`. -/
def linear_to_srgb (ops : FloatOps) (c : ℚ) : ℚ :=
  if c ≤ 0.0031308 then c * 12.92 else 1.055 * ops.powf c (1 / 2.4) - 0.055

/-- `oklch.rs::linear_rgb_to_oklab`. -/
def linear_rgb_to_oklab (ops : FloatOps) (rgb : LinRgb) : Oklab :=
  let l := 0.4122214708 * rgb.r + 0.5363325363 * rgb.g + 0.0514459929 * rgb.b
  let m := 0.2119034982 * rgb.r + 0.6806995451 * rgb.g + 0.1073969566 * rgb.b
  let s := 0.0883024619 * rgb.r + 0.2817188376 * rgb.g + 0.6299787005 * rgb.b
  let l := ops.cbrt l
  let m := ops.cbrt m
  let s := ops.cbrt s
  { l := 0.2104542553 * l + 0.7936177850 * m - 0.0040720468 * s
    a := 1.9779984951 * l - 2.4285922050 * m + 0.4505937099 * s
    b := 0.0259040371 * l + 0.7827717662 * m - 0.8086757660 * s }

/-- `oklch.rs::oklab_to_linear_rgb`. -/
def oklab_to_linear_rgb (lab : Oklab) : LinRgb :=
  let l1 := lab.l + 0.3963377774 * lab.a + 0.2158037573 * lab.b
  let m1 := lab.l - 0.1055613458 * lab.a - 0.0638541728 * lab.b
  let s1 := lab.l - 0.0894841775 * lab.a - 1.2914855480 * lab.b
  let l := l1 * l1 * l1
  let m := m1 * m1 * m1
  let s := s1 * s1 * s1
  { r := 4.0767416621 * l - 3.3077115913 * m + 0.2309699292 * s
    g := -1.2684380046 * l + 2.6097574011 * m - 0.3413193965 * s
    b := -0.0041960863 * l - 0.7034186147 * m + 1.7076147010 * s }

/-- `oklch.rs::oklab_to_oklch`. -/
def oklab_to_oklch (ops : FloatOps) (lab : Oklab) : Oklch :=
  let c := ops.sqrt (lab.a * lab.a + lab.b * lab.b)
  let h := if c < 1e-8 then 0 else ops.atan2 lab.b lab.a
  { l := lab.l, c := c, h := h }

/-- `oklch.rs::oklch_to_oklab`. -/
def oklch_to_oklab (ops : FloatOps) (lch : Oklch) : Oklab :=
  { l := lch.l, a := lch.c * ops.cos lch.h, b := lch.c * ops.sin lch.h }

/-- `oklch.rs::srgb_to_oklch`. -/
def srgb_to_oklch (ops : FloatOps) (r g b : ℕ) : Oklch :=
  let lin : LinRgb :=
    { r := srgb_to_linear ops ((r : ℚ) / 255)
      g := srgb_to_linear ops ((g : ℚ) / 255)
      b := srgb_to_linear ops ((b : ℚ) / 255) }
  oklab_to_oklch ops (linear_rgb_to_oklab ops lin)

/-- The Rust saturating cast `x as u8` applied to a nonnegative-or-not rational
(truncates toward zero, clamps to `[0, 255]`). -/
def as_u8 (q : ℚ) : ℕ :=
  if q ≤ 0 then 0 else min 255 ⌊q⌋.toNat

/-- `oklch.rs::oklch_to_srgb` (`to_u8` inlined: clamp to `[0,1]`, gamma
encode, `* 255.0 + 0.5`, cast). -/
def oklch_to_srgb (ops : FloatOps) (lch : Oklch) : ℕ × ℕ × ℕ :=
  let lin := oklab_to_linear_rgb (oklch_to_oklab ops lch)
  let to_u8 := fun (c : ℚ) => as_u8 (linear_to_srgb ops (max 0 (min 1 c)) * 255 + 0.5)
  (to_u8 lin.r, to_u8 lin.g, to_u8 lin.b)

/-- `oklch.rs::lerp`: hue interpolates via shortest arc (`PI` is the `f32` π). -/
def lerp (a b : Oklch) (t : ℚ) : Oklch :=
  let l := a.l + (b.l - a.l) * t
  let c := a.c + (b.c - a.c) * t
  let dh0 := b.h - a.h
  let dh := if dh0 > PI32 then dh0 - 2 * PI32
            else if dh0 < -PI32 then dh0 + 2 * PI32
            else dh0
  let h := a.h + dh * t
  { l := l, c := c, h := h }

/-- `oklch.rs::distance`: Euclidean distance in Oklab. -/
def distance (ops : FloatOps) (a b : Oklch) : ℚ :=
  let lab_a := oklch_to_oklab ops a
  let lab_b := oklch_to_oklab ops b
  let dl := lab_a.l - lab_b.l
  let da := lab_a.a - lab_b.a
  let db := lab_a.b - lab_b.b
  ops.sqrt (dl * dl + da * da + db * db)

end oklch

/-- The `ratatui::style::Color` type (external data type the crate consumes). -/
inductive Color where
  | Reset
  | Black | Red | Green | Yellow | Blue | Magenta | Cyan | Gray
  | DarkGray | LightRed | LightGreen | LightYellow | LightBlue
  | LightMagenta | LightCyan | White
  | Rgb (r g b : ℕ)
  | Indexed (i : ℕ)
deriving DecidableEq, Repr

namespace oklch

/-- `oklch.rs::from_color`: convert a ratatui color to Oklch if it has a
concrete RGB representation. -/
def from_color (ops : FloatOps) : Color → Option Oklch
  | .Rgb r g b => some (srgb_to_oklch ops r g b)
  | .Black => some (srgb_to_oklch ops 0 0 0)
  | .Red => some (srgb_to_oklch ops 128 0 0)
  | .Green => some (srgb_to_oklch ops 0 128 0)
  | .Yellow => some (srgb_to_oklch ops 128 128 0)
  | .Blue => some (srgb_to_oklch ops 0 0 128)
  | .Magenta => some (srgb_to_oklch ops 128 0 128)
  | .Cyan => some (srgb_to_oklch ops 0 128 128)
  | .Gray => some (srgb_to_oklch ops 192 192 192)
  | .DarkGray => some (srgb_to_oklch ops 128 128 128)
  | .LightRed => some (srgb_to_oklch ops 255 0 0)
  | .LightGreen => some (srgb_to_oklch ops 0 255 0)
  | .LightYellow => some (srgb_to_oklch ops 255 255 0)
  | .LightBlue => some (srgb_to_oklch ops 0 0 255)
  | .LightMagenta => some (srgb_to_oklch ops 255 0 255)
  | .LightCyan => some (srgb_to_oklch ops 0 255 255)
  | .White => some (srgb_to_oklch ops 255 255 255)
  | .Reset => none
  | .Indexed _ => none

/-- `oklch.rs::to_color`. -/
def to_color (ops : FloatOps) (lch : Oklch) : Color :=
  let rgb := oklch_to_srgb ops lch
  Color.Rgb rgb.1 rgb.2.1 rgb.2.2

end oklch

/-- `weights.rs::MorphWeights`. -/
structure MorphWeights where
  spatial : ℚ
  glyph : ℚ
  color : ℚ
  glyph_mismatch : ℚ
deriving DecidableEq, Repr

namespace MorphWeights

/-- `weights.rs`: the LIQUID preset. -/
def LIQUID : MorphWeights := { spatial := 1, glyph := 0.1, color := 0.2, glyph_mismatch := 5 }

/-- `weights.rs`: the CRISP preset. -/
def CRISP : MorphWeights := { spatial := 0.2, glyph := 1, color := 0.3, glyph_mismatch := 20 }

/-- `weights.rs`: the FADE preset. -/
def FADE : MorphWeights := { spatial := 0.1, glyph := 0.1, color := 1, glyph_mismatch := 2 }

end MorphWeights

/-- `plan.rs::ColorPair`: raw color plus optional Oklch representation. -/
structure ColorPair where
  raw : Color
  oklch : Option oklch.Oklch
deriving DecidableEq, Repr

/-- `plan.rs::ColorPair::from_color`. -/
def ColorPair.from_color (ops : FloatOps) (color : Color) : ColorPair :=
  { raw := color, oklch := oklch.from_color ops color }

/-- `plan.rs::StableCell`. -/
structure StableCell where
  x : ℕ
  y : ℕ
  symbol : String
  fg : Color
  bg : Color
  modifier : ℕ
deriving DecidableEq, Repr

/-- `plan.rs::MutatingCell`. -/
structure MutatingCell where
  x : ℕ
  y : ℕ
  src_symbol : String
  dst_symbol : String
  src_fg : ColorPair
  dst_fg : ColorPair
  src_bg : ColorPair
  dst_bg : ColorPair
  src_modifier : ℕ
  dst_modifier : ℕ
deriving DecidableEq, Repr

/-- `plan.rs::DisplacedCell`. -/
structure DisplacedCell where
  src_x : ℕ
  src_y : ℕ
  dst_x : ℕ
  dst_y : ℕ
  src_symbol : String
  dst_symbol : String
  src_fg : ColorPair
  dst_fg : ColorPair
  src_bg : ColorPair
  dst_bg : ColorPair
  src_modifier : ℕ
  dst_modifier : ℕ
deriving DecidableEq, Repr

/-- `plan.rs::OrphanCell`.  `counter_bg` is documented in the source as "the
background at this position in the *other* frame". -/
structure OrphanCell where
  x : ℕ
  y : ℕ
  symbol : String
  fg : ColorPair
  bg : ColorPair
  counter_bg : ColorPair
  modifier : ℕ
deriving DecidableEq, Repr

/-- `plan.rs::InterpolationPlan`. -/
structure InterpolationPlan where
  width : ℕ
  height : ℕ
  stable : List StableCell
  mutating : List MutatingCell
  displaced : List DisplacedCell
  appearing : List OrphanCell
  disappearing : List OrphanCell
deriving DecidableEq, Repr

/-- The consumed `ratatui::buffer::Cell` (symbol, fg, bg, modifier — the
fields the crate reads and writes; the modifier bitset is modelled as `ℕ`). -/
structure Cell where
  symbol : String
  fg : Color
  bg : Color
  modifier : ℕ
deriving DecidableEq, Repr

/-- `ratatui` `Cell::EMPTY`: a space with reset colors and empty modifier. -/
def Cell.empty : Cell := { symbol := " ", fg := .Reset, bg := .Reset, modifier := 0 }

/-- The consumed `ratatui::buffer::Buffer`: a `width × height` grid of cells
with origin `(0,0)`, row-major (`index = y * width + x`). -/
structure Buffer where
  width : ℕ
  height : ℕ
  cells : List Cell
deriving DecidableEq, Repr

namespace Buffer

/-- Read the cell at `(x, y)` (row-major indexing, as `ratatui` does). -/
def get (b : Buffer) (x y : ℕ) : Cell :=
  b.cells.getD (y * b.width + x) Cell.empty

/-- Write the cell at `(x, y)`. -/
def set (b : Buffer) (x y : ℕ) (c : Cell) : Buffer :=
  { b with cells := b.cells.set (y * b.width + x) c }

/-- `ratatui` `Buffer::empty` on `Rect::new(0, 0, w, h)`. -/
def empty (w h : ℕ) : Buffer :=
  { width := w, height := h, cells := List.replicate (w * h) Cell.empty }

end Buffer

namespace solver

/-- `solver.rs::is_blank_cell`. -/
def is_blank_cell (cell : Cell) : Bool :=
  cell.symbol == " " || cell.symbol == ""

/-- `solver.rs::CellSnapshot`. -/
structure CellSnapshot where
  symbol : String
  fg : ColorPair
  bg : ColorPair
  modifier : ℕ
deriving DecidableEq, Repr

/-- `solver.rs::CellSnapshot::from_cell`. -/
def CellSnapshot.from_cell (ops : FloatOps) (cell : Cell) : CellSnapshot :=
  { symbol := cell.symbol
    fg := ColorPair.from_color ops cell.fg
    bg := ColorPair.from_color ops cell.bg
    modifier := cell.modifier }

/-- `solver.rs::orphan_from`.  Faithful to a defect of the source: the struct
literal there omits the `counter_bg` field that `plan.rs::OrphanCell` declares
(the crate does not compile as written), and `solve_unmatched` receives only
the unmatched snapshots, never the other frame, so no buffer-derived value is
available here.  The missing initialization is modelled by the explicit
arbitrary parameter `uninit`. -/
def orphan_from (uninit : ColorPair) (x y : ℕ) (snap : CellSnapshot) : OrphanCell :=
  { x := x, y := y, symbol := snap.symbol, fg := snap.fg, bg := snap.bg
    counter_bg := uninit, modifier := snap.modifier }

/-- Result of the first-pass per-cell classification in `solver.rs::diff`
(which of the four vectors the cell at `(x,y)` is pushed onto). -/
inductive CellClass where
  | stable (c : StableCell)
  | mutating (c : MutatingCell)
  | srcUn (e : ℕ × ℕ × CellSnapshot)
  | dstUn (e : ℕ × ℕ × CellSnapshot)
deriving DecidableEq, Repr

/-- The per-cell branch chain of `solver.rs::diff` (lines 27-68). -/
def classify (ops : FloatOps) (x y : ℕ) (sc dc : Cell) : CellClass :=
  let same_symbol := sc.symbol == dc.symbol
  let same_fg := sc.fg == dc.fg
  let same_bg := sc.bg == dc.bg
  let same_modifier := sc.modifier == dc.modifier
  if same_symbol && same_fg && same_bg && same_modifier then
    .stable { x := x, y := y, symbol := sc.symbol, fg := sc.fg, bg := sc.bg
              modifier := sc.modifier }
  else if is_blank_cell sc && !is_blank_cell dc then
    .dstUn (x, y, CellSnapshot.from_cell ops dc)
  else if !is_blank_cell sc && is_blank_cell dc then
    .srcUn (x, y, CellSnapshot.from_cell ops sc)
  else if !is_blank_cell sc && !is_blank_cell dc then
    .mutating { x := x, y := y, src_symbol := sc.symbol, dst_symbol := dc.symbol
                src_fg := ColorPair.from_color ops sc.fg
                dst_fg := ColorPair.from_color ops dc.fg
                src_bg := ColorPair.from_color ops sc.bg
                dst_bg := ColorPair.from_color ops dc.bg
                src_modifier := sc.modifier, dst_modifier := dc.modifier }
  else
    -- Both blank but different style — snap to target.
    .stable { x := x, y := y, symbol := dc.symbol, fg := dc.fg, bg := dc.bg
              modifier := dc.modifier }

/-- `solver.rs::cell_cost`. -/
def cell_cost (ops : FloatOps) (sx sy : ℕ) (ss : CellSnapshot) (dx dy : ℕ)
    (ds : CellSnapshot) (w : MorphWeights) : ℚ :=
  let spatial :=
    let dx_f := (dx : ℚ) - (sx : ℚ)
    let dy_f := (dy : ℚ) - (sy : ℚ)
    dx_f * dx_f + dy_f * dy_f
  let glyph := if ss.symbol = ds.symbol then 0 else w.glyph_mismatch
  let color :=
    match ss.fg.oklch, ds.fg.oklch with
    | some a, some b => oklch.distance ops a b
    | _, _ => 0.5
  w.spatial * spatial + w.glyph * glyph + w.color * color

/-- `f32` values as the Hungarian routine uses them: finite (modelled exactly
as a rational), the two infinities, and NaN, with IEEE comparison semantics. -/
inductive F where
  | fin (q : ℚ)
  | pinf
  | ninf
  | nan
deriving DecidableEq, Repr

/-- IEEE negation. -/
def F.neg : F → F
  | .fin q => .fin (-q)
  | .pinf => .ninf
  | .ninf => .pinf
  | .nan => .nan

/-- IEEE addition (as far as the Hungarian routine exercises it). -/
def F.add : F → F → F
  | .fin a, .fin b => .fin (a + b)
  | .fin _, .pinf => .pinf
  | .fin _, .ninf => .ninf
  | .pinf, .fin _ => .pinf
  | .ninf, .fin _ => .ninf
  | .pinf, .pinf => .pinf
  | .ninf, .ninf => .ninf
  | .pinf, .ninf => .nan
  | .ninf, .pinf => .nan
  | .nan, _ => .nan
  | _, .nan => .nan

/-- IEEE subtraction. -/
def F.sub (a b : F) : F := a.add b.neg

/-- IEEE strict less-than (`NaN` compares false against everything). -/
def F.blt : F → F → Bool
  | .fin a, .fin b => a < b
  | .fin _, .pinf => true
  | .fin _, .ninf => false
  | .fin _, .nan => false
  | .pinf, _ => false
  | .ninf, .fin _ => true
  | .ninf, .pinf => true
  | .ninf, .ninf => false
  | .ninf, .nan => false
  | .nan, _ => false

/-- Pointwise update of a total map, modelling an array store. -/
def upd {α : Type} (f : ℕ → α) (k : ℕ) (x : α) : ℕ → α :=
  fun j => if j = k then x else f j

/-- The outer state of `solver.rs::hungarian` that persists across
augmentations: potentials `u`, `v`, the column assignment, and `way`. -/
structure HState where
  u : ℕ → F
  v : ℕ → F
  assign : ℕ → ℕ
  way : ℕ → ℕ

/-- State of the inner search loop of one augmentation. -/
structure InnerSt where
  u : ℕ → F
  v : ℕ → F
  way : ℕ → ℕ
  minv : ℕ → F
  used : ℕ → Bool
  j0 : ℕ

/-- Accumulator of the scan over columns `j = 1..=size` (lines 259-275). -/
structure ScanSt where
  minv : ℕ → F
  way : ℕ → ℕ
  delta : F
  j1 : ℕ

/-- One step of the column scan (`solver.rs` lines 259-275). -/
def scanStep (c : ℕ → ℕ → F) (u v : ℕ → F) (used : ℕ → Bool) (i0 j0 : ℕ)
    (st : ScanSt) (j : ℕ) : ScanSt :=
  if used j then st
  else
    let cur := ((c (i0 - 1) (j - 1)).sub (u i0)).sub (v j)
    let st :=
      if cur.blt (st.minv j) then
        { st with minv := upd st.minv j cur, way := upd st.way j j0 }
      else st
    if (st.minv j).blt st.delta then { st with delta := st.minv j, j1 := j }
    else st

/-- One step of the potential update over `j = 0..=size` (lines 277-284). -/
def updStep (delta : F) (assign : ℕ → ℕ) (used : ℕ → Bool)
    (st : (ℕ → F) × (ℕ → F) × (ℕ → F)) (j : ℕ) : (ℕ → F) × (ℕ → F) × (ℕ → F) :=
  let (u, v, minv) := st
  if used j then
    (upd u (assign j) ((u (assign j)).add delta), upd v j ((v j).sub delta), minv)
  else
    (u, v, upd minv j ((minv j).sub delta))

/-- The inner search loop of one augmentation (`solver.rs` lines 253-291).
The source `loop` terminates because every non-breaking iteration marks a
previously unused column and a breaking column always exists; the fuel passed
by callers (`size + 2`) therefore covers every terminating run, and the `Bool`
records whether the loop broke (reached an unmatched column). -/
def innerLoop (size : ℕ) (c : ℕ → ℕ → F) (assign : ℕ → ℕ) :
    ℕ → InnerSt → InnerSt × Bool
  | 0, st => (st, false)
  | fuel + 1, st =>
    let used := upd st.used st.j0 true
    let i0 := assign st.j0
    let scan := ((List.range size).map (· + 1)).foldl
      (scanStep c st.u st.v used i0 st.j0)
      { minv := st.minv, way := st.way, delta := .pinf, j1 := 0 }
    let uvm := (List.range (size + 1)).foldl (updStep scan.delta assign used)
      (st.u, st.v, scan.minv)
    let st2 : InnerSt :=
      { u := uvm.1, v := uvm.2.1, way := scan.way, minv := uvm.2.2
        used := used, j0 := scan.j1 }
    if assign st2.j0 = 0 then (st2, true)
    else innerLoop size c assign fuel st2

/-- The augmenting-path rewrite loop (`solver.rs` lines 293-301), fueled for
the same reason as `innerLoop`. -/
def augmentLoop : ℕ → (ℕ → ℕ) → (ℕ → ℕ) → ℕ → (ℕ → ℕ)
  | 0, assign, _, _ => assign
  | fuel + 1, assign, way, j0 =>
    let prev := way j0
    let assign := upd assign j0 (assign prev)
    if prev = 0 then assign else augmentLoop fuel assign way prev

/-- One augmentation (`solver.rs` lines 247-302, one iteration of `for i`). -/
def augmentRow (size : ℕ) (c : ℕ → ℕ → F) (st : HState) (i : ℕ) : HState :=
  let assign := upd st.assign 0 i
  let inner0 : InnerSt :=
    { u := st.u, v := st.v, way := st.way, minv := fun _ => .pinf
      used := fun _ => false, j0 := 0 }
  let res := innerLoop size c assign (size + 2) inner0
  let fin := res.1
  if res.2 then
    { u := fin.u, v := fin.v, way := fin.way
      assign := augmentLoop (size + 2) assign fin.way fin.j0 }
  else
    { u := fin.u, v := fin.v, way := fin.way, assign := assign }

/-- The extraction of real (non-padded) assignments (`solver.rs` lines
304-315). -/
def extract (assign : ℕ → ℕ) (n m size : ℕ) : List (Option ℕ) :=
  ((List.range size).map (· + 1)).foldl
    (fun res j =>
      let i := assign j
      if 1 ≤ i ∧ i ≤ n ∧ j ≤ m then res.set (i - 1) (some (j - 1)) else res)
    (List.replicate n none)

/-- `solver.rs::hungarian`: pads to square (`size = max n m`, zero fill), runs
the potentials-based successive-augmentation algorithm, filters to real
assignments. -/
def hungarian (cost : List (List ℚ)) (n m : ℕ) : List (Option ℕ) :=
  let size := max n m
  let c : ℕ → ℕ → F := fun i j => .fin ((cost.getD i []).getD j 0)
  let st0 : HState :=
    { u := fun _ => .fin 0, v := fun _ => .fin 0
      assign := fun _ => 0, way := fun _ => 0 }
  let stF := ((List.range size).map (· + 1)).foldl (augmentRow size c) st0
  extract stF.assign n m size

/-- The demotion threshold of `solver.rs::solve_unmatched` (lines 151-153). -/
def threshold (w : MorphWeights) : ℚ :=
  w.glyph_mismatch * w.glyph * 2 + w.spatial * 100 + w.color * 0.5

/-- Placeholder snapshot for out-of-range indexing (never reached on the
in-range indices the source uses). -/
def dfltSnap : ℕ × ℕ × CellSnapshot :=
  (0, 0, { symbol := "", fg := ⟨.Reset, none⟩, bg := ⟨.Reset, none⟩, modifier := 0 })

/-- The `DisplacedCell` built by `solve_unmatched` for a matched pair
(`solver.rs` lines 168-181). -/
def displaced_of (s d : ℕ × ℕ × CellSnapshot) : DisplacedCell :=
  { src_x := s.1, src_y := s.2.1, dst_x := d.1, dst_y := d.2.1
    src_symbol := s.2.2.symbol, dst_symbol := d.2.2.symbol
    src_fg := s.2.2.fg, dst_fg := d.2.2.fg
    src_bg := s.2.2.bg, dst_bg := d.2.2.bg
    src_modifier := s.2.2.modifier, dst_modifier := d.2.2.modifier }

/-- The cost matrix of `solve_unmatched` (lines 140-148) as a function. -/
def costOf (ops : FloatOps) (weights : MorphWeights)
    (src dst : List (ℕ × ℕ × CellSnapshot)) : ℕ → ℕ → ℚ :=
  let cost : List (List ℚ) := src.map (fun s =>
    dst.map (fun d => cell_cost ops s.1 s.2.1 s.2.2 d.1 d.2.1 d.2.2 weights))
  fun i j => (cost.getD i []).getD j 0

/-- The `dst_matched` flag vector of `solve_unmatched`, extensionally:
`dst_matched j` holds exactly when some iteration of the assignment loop
pushes a `Displaced` entry with dst index `j`, which is precisely when the
source sets the flag (line 183). -/
def dst_matchedB (A : List (Option ℕ)) (costf : ℕ → ℕ → ℚ) (thr : ℚ) (n : ℕ) :
    ℕ → Bool := fun j =>
  (List.range n).any (fun i => A.getD i none == some j && decide (costf i j ≤ thr))

/-- The `displaced` vector pushed by the assignment loop (lines 162-191). -/
def displacedList (A : List (Option ℕ)) (costf : ℕ → ℕ → ℚ) (thr : ℚ)
    (src dst : List (ℕ × ℕ × CellSnapshot)) : List DisplacedCell :=
  (List.range src.length).filterMap (fun i =>
    match A.getD i none with
    | some j =>
      if costf i j ≤ thr then some (displaced_of (src.getD i dfltSnap) (dst.getD j dfltSnap))
      else none
    | none => none)

/-- The `disappearing` vector pushed by the assignment loop (lines 162-191). -/
def disappearingList (uninit : ColorPair) (A : List (Option ℕ)) (costf : ℕ → ℕ → ℚ)
    (thr : ℚ) (src : List (ℕ × ℕ × CellSnapshot)) : List OrphanCell :=
  (List.range src.length).filterMap (fun i =>
    match A.getD i none with
    | some j =>
      if costf i j ≤ thr then none
      else
        let s := src.getD i dfltSnap
        some (orphan_from uninit s.1 s.2.1 s.2.2)
    | none =>
      let s := src.getD i dfltSnap
      some (orphan_from uninit s.1 s.2.1 s.2.2))

/-- The `appearing` vector pushed by the final loop (lines 193-197). -/
def appearingList (uninit : ColorPair) (dst_matched : ℕ → Bool)
    (dst : List (ℕ × ℕ × CellSnapshot)) : List OrphanCell :=
  (List.range dst.length).filterMap (fun j =>
    if dst_matched j then none
    else
      let d := dst.getD j dfltSnap
      some (orphan_from uninit d.1 d.2.1 d.2.2))

/-- `solver.rs::solve_unmatched`.  The push-loops of the source are rendered
as `filterMap`s over the iteration ranges (same lists, same order). -/
def solve_unmatched (ops : FloatOps) (uninit : ColorPair)
    (src dst : List (ℕ × ℕ × CellSnapshot)) (weights : MorphWeights) :
    List DisplacedCell × List OrphanCell × List OrphanCell :=
  if src.isEmpty && dst.isEmpty then ([], [], [])
  else if src.isEmpty then
    ([], dst.map (fun e => orphan_from uninit e.1 e.2.1 e.2.2), [])
  else if dst.isEmpty then
    ([], [], src.map (fun e => orphan_from uninit e.1 e.2.1 e.2.2))
  else
    let n := src.length
    let m := dst.length
    let cost : List (List ℚ) := src.map (fun s =>
      dst.map (fun d => cell_cost ops s.1 s.2.1 s.2.2 d.1 d.2.1 d.2.2 weights))
    let costf := costOf ops weights src dst
    let thr := threshold weights
    let A := hungarian cost n m
    let dst_matched := dst_matchedB A costf thr n
    (displacedList A costf thr src dst,
     appearingList uninit dst_matched dst,
     disappearingList uninit A costf thr src)

/-- The grid iteration order of `solver.rs::diff` (`y` outer, `x` inner,
origin `(0,0)`). -/
def positions (w h : ℕ) : List (ℕ × ℕ) :=
  ((List.range h).map (fun y => (List.range w).map (fun x => (x, y)))).flatten

/-- Projection selecting the `stable` pushes of the classification pass. -/
def classStable : CellClass → Option StableCell
  | .stable c => some c
  | _ => none

/-- Projection selecting the `mutating` pushes of the classification pass. -/
def classMutating : CellClass → Option MutatingCell
  | .mutating c => some c
  | _ => none

/-- Projection selecting the `src_unmatched` pushes of the classification pass. -/
def classSrcUn : CellClass → Option (ℕ × ℕ × CellSnapshot)
  | .srcUn e => some e
  | _ => none

/-- Projection selecting the `dst_unmatched` pushes of the classification pass. -/
def classDstUn : CellClass → Option (ℕ × ℕ × CellSnapshot)
  | .dstUn e => some e
  | _ => none

/-- `solver.rs::diff` (buffers must have the same dimensions; the source
asserts this, theorems carry it as a hypothesis). -/
def diff (ops : FloatOps) (uninit : ColorPair) (src dst : Buffer)
    (weights : MorphWeights) : InterpolationPlan :=
  let width := src.width
  let height := src.height
  let cls := fun p : ℕ × ℕ => classify ops p.1 p.2 (src.get p.1 p.2) (dst.get p.1 p.2)
  let stable := (positions width height).filterMap (fun p => classStable (cls p))
  let mutating := (positions width height).filterMap (fun p => classMutating (cls p))
  let src_unmatched := (positions width height).filterMap (fun p => classSrcUn (cls p))
  let dst_unmatched := (positions width height).filterMap (fun p => classDstUn (cls p))
  let sol := solve_unmatched ops uninit src_unmatched dst_unmatched weights
  { width := width, height := height, stable := stable, mutating := mutating
    displaced := sol.1, appearing := sol.2.1, disappearing := sol.2.2 }

end solver

namespace interpolate

/-- `interpolate.rs::LEGIBILITY_THRESHOLD`. -/
def LEGIBILITY_THRESHOLD : ℚ := 0.15

/-- `interpolate.rs::lerp_color`. -/
def lerp_color (ops : FloatOps) (src dst : ColorPair) (t : ℚ) : Color :=
  match src.oklch, dst.oklch with
  | some a, some b => oklch.to_color ops (oklch.lerp a b t)
  | _, _ => if t < 0.5 then src.raw else dst.raw

/-- `interpolate.rs::pick_symbol`. -/
def pick_symbol (src dst : String) (src_fg : ColorPair) (t : ℚ) : String :=
  if src = dst then src
  else
    let thr :=
      match src_fg.oklch with
      | some lch =>
        if lch.l < 0.01 then 0.5 else max 0 (min 1 (LEGIBILITY_THRESHOLD / lch.l))
      | none => 0.5
    if t < thr then src else dst

/-- `interpolate.rs::fade`: scale lightness by `factor`. -/
def fade (ops : FloatOps) (color : ColorPair) (factor : ℚ) : Color :=
  match color.oklch with
  | some lch => oklch.to_color ops { lch with l := lch.l * factor }
  | none => if factor ≥ 0.5 then color.raw else Color.Reset

/-- `f32::round`: round half away from zero, exact on rationals. -/
def roundQ (q : ℚ) : ℤ :=
  if q ≥ 0 then ⌊q + 1 / 2⌋ else -⌊-q + 1 / 2⌋

/-- The Rust saturating cast `x as u16` on an integer-valued float. -/
def as_u16 (z : ℤ) : ℕ := (min 65535 (max 0 z)).toNat

/-- `interpolate.rs::lerp_pos`. -/
def lerp_pos (src dst : ℕ) (t : ℚ) : ℕ :=
  as_u16 (roundQ ((src : ℚ) + ((dst : ℚ) - (src : ℚ)) * t))

/-- One write of `interpolate.rs::render_stable`. -/
def render_stable_step (buf : Buffer) (cell : StableCell) : Buffer :=
  buf.set cell.x cell.y
    { symbol := cell.symbol, fg := cell.fg, bg := cell.bg, modifier := cell.modifier }

/-- `interpolate.rs::render_stable`. -/
def render_stable (plan : InterpolationPlan) (buf : Buffer) : Buffer :=
  plan.stable.foldl render_stable_step buf

/-- One write of `interpolate.rs::render_mutating`. -/
def render_mutating_step (ops : FloatOps) (t : ℚ) (buf : Buffer) (cell : MutatingCell) : Buffer :=
  let fg := lerp_color ops cell.src_fg cell.dst_fg t
  let bg := lerp_color ops cell.src_bg cell.dst_bg t
  let symbol := pick_symbol cell.src_symbol cell.dst_symbol cell.src_fg t
  let modifier := if t < 0.5 then cell.src_modifier else cell.dst_modifier
  buf.set cell.x cell.y { symbol := symbol, fg := fg, bg := bg, modifier := modifier }

/-- `interpolate.rs::render_mutating`. -/
def render_mutating (ops : FloatOps) (plan : InterpolationPlan) (t : ℚ) (buf : Buffer) : Buffer :=
  plan.mutating.foldl (render_mutating_step ops t) buf

/-- One write of `interpolate.rs::render_displaced` (skips targets outside the
grid). -/
def render_displaced_step (ops : FloatOps) (width height : ℕ) (t : ℚ)
    (buf : Buffer) (cell : DisplacedCell) : Buffer :=
  let x := lerp_pos cell.src_x cell.dst_x t
  let y := lerp_pos cell.src_y cell.dst_y t
  if x ≥ width ∨ y ≥ height then buf
  else
    let fg := lerp_color ops cell.src_fg cell.dst_fg t
    let bg := lerp_color ops cell.src_bg cell.dst_bg t
    let symbol := pick_symbol cell.src_symbol cell.dst_symbol cell.src_fg t
    let modifier := if t < 0.5 then cell.src_modifier else cell.dst_modifier
    buf.set x y { symbol := symbol, fg := fg, bg := bg, modifier := modifier }

/-- `interpolate.rs::render_displaced`. -/
def render_displaced (ops : FloatOps) (plan : InterpolationPlan) (t : ℚ) (buf : Buffer) : Buffer :=
  plan.displaced.foldl (render_displaced_step ops plan.width plan.height t) buf

/-- One write of `interpolate.rs::render_appearing`: style is always set;
symbol and modifier only when the legibility gate passes. -/
def render_appearing_step (ops : FloatOps) (t : ℚ) (buf : Buffer) (cell : OrphanCell) : Buffer :=
  let factor := t
  let fg := fade ops cell.fg factor
  let bg := lerp_color ops cell.counter_bg cell.bg t
  let visible :=
    match cell.fg.oklch with
    | some lch => decide (lch.l * factor ≥ LEGIBILITY_THRESHOLD)
    | none => decide (factor ≥ 0.5)
  let old := buf.get cell.x cell.y
  if visible then
    buf.set cell.x cell.y { symbol := cell.symbol, fg := fg, bg := bg, modifier := cell.modifier }
  else
    buf.set cell.x cell.y { symbol := old.symbol, fg := fg, bg := bg, modifier := old.modifier }

/-- `interpolate.rs::render_appearing`. -/
def render_appearing (ops : FloatOps) (plan : InterpolationPlan) (t : ℚ) (buf : Buffer) : Buffer :=
  plan.appearing.foldl (render_appearing_step ops t) buf

/-- One write of `interpolate.rs::render_disappearing`. -/
def render_disappearing_step (ops : FloatOps) (t : ℚ) (buf : Buffer) (cell : OrphanCell) : Buffer :=
  let factor := 1 - t
  let fg := fade ops cell.fg factor
  let bg := lerp_color ops cell.bg cell.counter_bg t
  let visible :=
    match cell.fg.oklch with
    | some lch => decide (lch.l * factor ≥ LEGIBILITY_THRESHOLD)
    | none => decide (factor ≥ 0.5)
  let old := buf.get cell.x cell.y
  if visible then
    buf.set cell.x cell.y { symbol := cell.symbol, fg := fg, bg := bg, modifier := cell.modifier }
  else
    buf.set cell.x cell.y { symbol := old.symbol, fg := fg, bg := bg, modifier := old.modifier }

/-- `interpolate.rs::render_disappearing`. -/
def render_disappearing (ops : FloatOps) (plan : InterpolationPlan) (t : ℚ) (buf : Buffer) : Buffer :=
  plan.disappearing.foldl (render_disappearing_step ops t) buf

/-- `interpolate.rs::render`: fresh empty buffer of plan dimensions, then the
five buckets composited in order. -/
def render (ops : FloatOps) (plan : InterpolationPlan) (t : ℚ) : Buffer :=
  let buf := Buffer.empty plan.width plan.height
  let buf := render_stable plan buf
  let buf := render_mutating ops plan t buf
  let buf := render_displaced ops plan t buf
  let buf := render_appearing ops plan t buf
  render_disappearing ops plan t buf

end interpolate

namespace backend

/-- The interface of the wrapped inner renderer (`ratatui::backend::Backend`),
as the adapter consumes it.  Operations return their `io::Result` together
with the inner backend's next state. -/
structure InnerOps (σ ε : Type) where
  draw : σ → List (ℕ × ℕ × Cell) → (Except ε Unit) × σ
  flushInner : σ → (Except ε Unit) × σ

/-- `backend.rs::MorphConfig`.  `duration` is in abstract time units; `fps`
and the wall clock do not appear in the time-abstracted model (elapsed-time
samples are passed explicitly instead). -/
structure MorphConfig where
  weights : MorphWeights
  duration : ℚ
  easing : ℚ → ℚ
  fps : ℕ

/-- The mutable state of `backend.rs::MorphBackend`. -/
structure MorphState (σ : Type) where
  inner : σ
  current_frame : Buffer
  prev_frame : Option Buffer
  last_flushed : Buffer

/-- `ratatui` `Buffer::diff` (external): the cell updates needed to go from
`previous` to `next`. -/
def bufferDiff (previous next : Buffer) : List (ℕ × ℕ × Cell) :=
  (solver.positions next.width next.height).filterMap (fun p =>
    if previous.get p.1 p.2 ≠ next.get p.1 p.2 then some (p.1, p.2, next.get p.1 p.2)
    else none)

/-- The accumulation loop of `backend.rs::MorphBackend::draw`: each `(x,y,cell)`
tuple is written into the frame when in bounds and silently dropped
otherwise. -/
def draw_writes (frame : Buffer) (content : List (ℕ × ℕ × Cell)) : Buffer :=
  content.foldl
    (fun fr u =>
      if u.1 < fr.width ∧ u.2.1 < fr.height then fr.set u.1 u.2.1 u.2.2 else fr)
    frame

/-- `backend.rs::MorphBackend::draw` (always returns `Ok(())`). -/
def draw (st : MorphState σ) (content : List (ℕ × ℕ × Cell)) :
    (Except ε Unit) × MorphState σ :=
  (.ok (), { st with current_frame := draw_writes st.current_frame content })

/-- `backend.rs::MorphBackend::flush_buffer_to_inner`. -/
def flush_buffer_to_inner (io : InnerOps σ ε) (st : MorphState σ) (buf : Buffer) :
    (Except ε Unit) × MorphState σ :=
  let updates := bufferDiff st.last_flushed buf
  match io.draw st.inner updates with
  | (.error e, s1) => (.error e, { st with inner := s1 })
  | (.ok _, s1) =>
    match io.flushInner s1 with
    | (.error e, s2) => (.error e, { st with inner := s2 })
    | (.ok _, s2) => (.ok (), { st with inner := s2, last_flushed := buf })

/-- The timed loop of `backend.rs::run_transition`, abstracted over time: the
caller passes the sequence of elapsed-time samples the wall clock would
produce; each iteration computes `raw_t = min (elapsed / duration) 1`, renders
and flushes, and exits after the iteration where `raw_t` reached 1.  When the
samples run out, the loop runs its final iteration with `raw_t = 1`, modelling
that real elapsed time eventually reaches the duration (so the final frame is
always emitted with t derived from `raw_t = 1`). -/
def transitionLoop (io : InnerOps σ ε) (cfg : MorphConfig) (ops : FloatOps)
    (plan : InterpolationPlan) : List ℚ → MorphState σ → (Except ε Unit) × MorphState σ
  | [], st =>
    let t := cfg.easing 1
    let interpolated := interpolate.render ops plan t
    flush_buffer_to_inner io st interpolated
  | e :: rest, st =>
    let raw_t := min (e / cfg.duration) 1
    let t := cfg.easing raw_t
    let interpolated := interpolate.render ops plan t
    match flush_buffer_to_inner io st interpolated with
    | (.error err, st1) => (.error err, st1)
    | (.ok _, st1) =>
      if raw_t ≥ 1 then (.ok (), st1) else transitionLoop io cfg ops plan rest st1

/-- `backend.rs::run_transition`: compute the plan once, then drive the loop. -/
def run_transition (io : InnerOps σ ε) (cfg : MorphConfig) (ops : FloatOps)
    (uninit : ColorPair) (st : MorphState σ) (prev next : Buffer)
    (samples : List ℚ) : (Except ε Unit) × MorphState σ :=
  let plan := solver.diff ops uninit prev next cfg.weights
  transitionLoop io cfg ops plan samples st

/-- `backend.rs::MorphBackend::flush`: `prev_frame.take()`, then either a
direct draw (first frame) or a transition; `prev_frame := Some(next)` only
when no error was propagated. -/
def flush (io : InnerOps σ ε) (cfg : MorphConfig) (ops : FloatOps)
    (uninit : ColorPair) (samples : List ℚ) (st : MorphState σ) :
    (Except ε Unit) × MorphState σ :=
  let next := st.current_frame
  match st.prev_frame with
  | some prev =>
    let st1 := { st with prev_frame := none }
    match run_transition io cfg ops uninit st1 prev next samples with
    | (.error e, st2) => (.error e, st2)
    | (.ok _, st2) => (.ok (), { st2 with prev_frame := some next })
  | none =>
    match flush_buffer_to_inner io st next with
    | (.error e, st2) => (.error e, st2)
    | (.ok _, st2) => (.ok (), { st2 with prev_frame := some next })

end backend

/-! ## Shared fixtures and helper lemmas -/

/-- A concrete arbitrary value standing for the uninitialized `counter_bg`
field (see `solver.orphan_from`). -/
def uninit0 : ColorPair := { raw := .Reset, oklch := none }

/-- The cell construction of the source's test fixtures (`make_buffer`):
`set_symbol(sym)` plus `set_style(Style::default().fg(fg))`. -/
def cellOf (s : String) (fg : Color) : Cell :=
  { symbol := s, fg := fg, bg := .Reset, modifier := 0 }

/-- The source's test fixture `make_buffer`. -/
def make_buffer (w h : ℕ) (cells : List ((ℕ × ℕ) × String × Color)) : Buffer :=
  cells.foldl (fun b pc => b.set pc.1.1 pc.1.2 (cellOf pc.2.1 pc.2.2)) (Buffer.empty w h)

/-- Placeholder orphan for out-of-range list reads in closed statements. -/
def dfltOrphan : OrphanCell :=
  { x := 0, y := 0, symbol := "", fg := uninit0, bg := uninit0
    counter_bg := uninit0, modifier := 0 }

/-- Placeholder displaced cell for out-of-range list reads in closed
statements. -/
def dfltDisplaced : DisplacedCell :=
  { src_x := 0, src_y := 0, dst_x := 0, dst_y := 0, src_symbol := "", dst_symbol := ""
    src_fg := uninit0, dst_fg := uninit0, src_bg := uninit0, dst_bg := uninit0
    src_modifier := 0, dst_modifier := 0 }

/-! ## C7 — lerp endpoints -/

/-- **C7, counterexample.**  The claim states `lerp(a, b, 1) = b` component-wise
for all Oklch colors.  At `a = (0,0,-3)`, `b = (0,0,3)` the hue difference is
`6 > π`, the shortest-arc branch shifts it by `-2π`, and the hue at `t = 1`
lands at `3 - 2π ≠ 3`. -/
theorem C7_lerp_at_one_hue_counterexample :
    oklch.lerp { l := 0, c := 0, h := -3 } { l := 0, c := 0, h := 3 } 1 ≠
      ({ l := 0, c := 0, h := 3 } : oklch.Oklch) := by
  decide

/-- **C7, amended.**  `lerp(a, b, 0) = a` exactly; `lerp(a, b, 1)` agrees with
`b` on `l` and `c`, and its hue is `b.h` possibly shifted by `±2π` (π being the
`f32` constant the source compares against); when `|b.h - a.h| ≤ π` no shift
happens and `lerp(a, b, 1) = b` exactly. -/
theorem C7_lerp_endpoints_amended (a b : oklch.Oklch) :
    oklch.lerp a b 0 = a ∧
    (oklch.lerp a b 1).l = b.l ∧
    (oklch.lerp a b 1).c = b.c ∧
    ((oklch.lerp a b 1).h = b.h ∨ (oklch.lerp a b 1).h = b.h - 2 * PI32 ∨
      (oklch.lerp a b 1).h = b.h + 2 * PI32) ∧
    (|b.h - a.h| ≤ PI32 → oklch.lerp a b 1 = b) := by
  obtain ⟨al, ac, ah⟩ := a
  obtain ⟨bl, bc, bh⟩ := b
  simp only [oklch.lerp, oklch.Oklch.mk.injEq]
  refine ⟨⟨by ring, by ring, ?_⟩, by ring, by ring, ?_, ?_⟩
  · split
    · ring
    · split <;> ring
  · split
    · right; left; ring
    · split
      · right; right; ring
      · left; ring
  · intro habs
    rw [abs_le] at habs
    have h1 : ¬ (bh - ah > PI32) := by linarith [habs.2]
    have h2 : ¬ (bh - ah < -PI32) := by linarith [habs.1]
    rw [if_neg h1, if_neg h2]
    exact ⟨by ring, by ring, by ring⟩

/-- **C7, witness** for the amended theorem at a concrete input. -/
theorem C7_lerp_endpoints_amended_witness :
    oklch.lerp { l := 0, c := 0, h := 1 } { l := 0, c := 0, h := 2 } 1 =
      ({ l := 0, c := 0, h := 2 } : oklch.Oklch) :=
  (C7_lerp_endpoints_amended { l := 0, c := 0, h := 1 } { l := 0, c := 0, h := 2 }).2.2.2.2
    (by decide)

/-! ## C1 — `counter_bg` of orphan cells -/

/-- **C1 (code bug).**  The spec (and `plan.rs`'s own documentation of
`OrphanCell`) require the `counter_bg` of an Appearing entry at `(x,y)` to be
the src background at `(x,y)`.  The source's `orphan_from` omits the field
altogether (the struct literal at solver.rs:110-119 has no `counter_bg`, so
the crate does not even compile), and `solve_unmatched` is never given the
other frame.  Concretely: with a src whose (blank) cell at `(1,0)` has a red
background, the produced Appearing entry's `counter_bg` is the uninitialized
placeholder, not the pair of `Color.Red`. -/
theorem C1_counter_bg_not_recorded :
    (((solver.diff ops0 uninit0
        ((Buffer.empty 2 1).set 1 0 { symbol := " ", fg := .Reset, bg := .Red, modifier := 0 })
        ((Buffer.empty 2 1).set 1 0 { symbol := "Z", fg := .Green, bg := .Reset, modifier := 0 })
        .LIQUID).appearing.getD 0 dfltOrphan).counter_bg ≠
      ColorPair.from_color ops0 Color.Red) ∧
    ((solver.diff ops0 uninit0
        ((Buffer.empty 2 1).set 1 0 { symbol := " ", fg := .Reset, bg := .Red, modifier := 0 })
        ((Buffer.empty 2 1).set 1 0 { symbol := "Z", fg := .Green, bg := .Reset, modifier := 0 })
        .LIQUID).appearing.length = 1) := by
  constructor
  · intro h
    have := congrArg ColorPair.raw h
    simp [solver.diff, ColorPair.from_color] at this
    revert this
    decide
  · decide

/-! ## Buffer access lemmas -/

namespace Buffer

/-- Well-formedness: the cell vector has exactly `width * height` entries
(`ratatui` buffers always satisfy this). -/
def wf (b : Buffer) : Prop := b.cells.length = b.width * b.height

theorem width_set (b : Buffer) (x y : ℕ) (c : Cell) : (b.set x y c).width = b.width := rfl

theorem height_set (b : Buffer) (x y : ℕ) (c : Cell) : (b.set x y c).height = b.height := rfl

theorem wf_set (b : Buffer) (x y : ℕ) (c : Cell) (h : b.wf) : (b.set x y c).wf := by
  simpa [wf, Buffer.set] using h

theorem wf_empty (w h : ℕ) : (Buffer.empty w h).wf := by
  simp [wf, Buffer.empty]

theorem index_lt {x y w h : ℕ} (hx : x < w) (hy : y < h) : y * w + x < w * h :=
  calc y * w + x < y * w + w := by omega
  _ = (y + 1) * w := by ring
  _ ≤ h * w := Nat.mul_le_mul_right w hy
  _ = w * h := Nat.mul_comm h w

theorem index_inj {x1 y1 x2 y2 w : ℕ} (hx1 : x1 < w) (hx2 : x2 < w)
    (h : y1 * w + x1 = y2 * w + x2) : x1 = x2 ∧ y1 = y2 := by
  have e1 : y1 * w + x1 = x1 + y1 * w := by ring
  have e2 : y2 * w + x2 = x2 + y2 * w := by ring
  rw [e1, e2] at h
  have m1 : (x1 + y1 * w) % w = x1 := by
    rw [Nat.add_mul_mod_self_right, Nat.mod_eq_of_lt hx1]
  have m2 : (x2 + y2 * w) % w = x2 := by
    rw [Nat.add_mul_mod_self_right, Nat.mod_eq_of_lt hx2]
  have d1 : (x1 + y1 * w) / w = y1 := by
    rw [Nat.add_mul_div_right _ _ (by omega : 0 < w), Nat.div_eq_of_lt hx1]
    omega
  have d2 : (x2 + y2 * w) / w = y2 := by
    rw [Nat.add_mul_div_right _ _ (by omega : 0 < w), Nat.div_eq_of_lt hx2]
    omega
  refine ⟨?_, ?_⟩
  · rw [← m1, ← m2, h]
  · rw [← d1, ← d2, h]

theorem get_set_self (b : Buffer) (x y : ℕ) (c : Cell) (hwf : b.wf)
    (hx : x < b.width) (hy : y < b.height) : (b.set x y c).get x y = c := by
  have hlt : y * b.width + x < b.cells.length := by
    rw [hwf]; exact index_lt hx hy
  simp [get, set, List.getD, List.getElem?_set_self hlt]

theorem get_set_ne_idx (b : Buffer) (x y p q : ℕ) (c : Cell)
    (h : q * b.width + p ≠ y * b.width + x) : (b.set x y c).get p q = b.get p q := by
  simp [get, set, List.getD, List.getElem?_set_ne (Ne.symm h)]

theorem get_set_ne (b : Buffer) (x y p q : ℕ) (c : Cell)
    (hp : p < b.width) (hx : x < b.width) (hne : (p, q) ≠ (x, y)) :
    (b.set x y c).get p q = b.get p q := by
  apply get_set_ne_idx
  intro h
  obtain ⟨hx', hy'⟩ := index_inj hp hx h
  exact hne (by rw [hx', hy'])

end Buffer

/-! ## C9 — incremental draw accumulation -/

/-- **C9.**  The adapter's `draw` always returns `Ok` and only updates
`current_frame`; processing a stream is processing its head then the rest;
an out-of-range tuple leaves the frame entirely unchanged; an in-range tuple
is stored at `(x,y)` and changes no other position. -/
theorem C9_draw_stores_in_range_drops_out_of_range {σ ε : Type}
    (st : backend.MorphState σ) (content : List (ℕ × ℕ × Cell))
    (frame : Buffer) (hwf : frame.wf) (x y p q : ℕ) (c : Cell) :
    (backend.draw (ε := ε) st content =
      (.ok (), { st with current_frame := backend.draw_writes st.current_frame content })) ∧
    (backend.draw_writes frame ((x, y, c) :: content) =
      backend.draw_writes
        (if x < frame.width ∧ y < frame.height then frame.set x y c else frame) content) ∧
    (¬ (x < frame.width ∧ y < frame.height) →
      backend.draw_writes frame [(x, y, c)] = frame) ∧
    (x < frame.width → y < frame.height →
      (backend.draw_writes frame [(x, y, c)]).get x y = c) ∧
    (x < frame.width → y < frame.height → p < frame.width → q < frame.height →
      (p, q) ≠ (x, y) →
      (backend.draw_writes frame [(x, y, c)]).get p q = frame.get p q) := by
  refine ⟨rfl, ?_, ?_, ?_, ?_⟩
  · simp only [backend.draw_writes, List.foldl_cons]
  · intro h
    simp [backend.draw_writes, h]
  · intro hx hy
    simp only [backend.draw_writes, List.foldl_cons, List.foldl_nil, if_pos (And.intro hx hy)]
    exact frame.get_set_self x y c hwf hx hy
  · intro hx hy hp hq hne
    simp only [backend.draw_writes, List.foldl_cons, List.foldl_nil, if_pos (And.intro hx hy)]
    exact frame.get_set_ne x y p q c hp hx hne

/-- **C9, witness**: a concrete two-cell stream against a 2×2 frame — the
in-range write lands, the out-of-range write is dropped, `Ok` is returned. -/
theorem C9_draw_witness :
    (Buffer.empty 2 2).wf ∧
    (backend.draw (σ := Unit) (ε := Unit)
        { inner := (), current_frame := Buffer.empty 2 2, prev_frame := none
          last_flushed := Buffer.empty 2 2 } [(1, 1, cellOf "A" .Red)] =
      (.ok (), { inner := (), prev_frame := none, last_flushed := Buffer.empty 2 2
                 current_frame := backend.draw_writes (Buffer.empty 2 2) [(1, 1, cellOf "A" .Red)] })) ∧
    backend.draw_writes (Buffer.empty 2 2) [(2, 0, cellOf "A" .Red)] = Buffer.empty 2 2 ∧
    (backend.draw_writes (Buffer.empty 2 2) [(1, 1, cellOf "A" .Red)]).get 1 1 = cellOf "A" .Red ∧
    (backend.draw_writes (Buffer.empty 2 2) [(1, 1, cellOf "A" .Red)]).get 0 1 =
      (Buffer.empty 2 2).get 0 1 := by
  have h := C9_draw_stores_in_range_drops_out_of_range (σ := Unit) (ε := Unit)
    { inner := (), current_frame := Buffer.empty 2 2, prev_frame := none
      last_flushed := Buffer.empty 2 2 }
    [] (Buffer.empty 2 2) (Buffer.wf_empty 2 2) 1 1 0 1 (cellOf "A" .Red)
  have h2 := C9_draw_stores_in_range_drops_out_of_range (σ := Unit) (ε := Unit)
    { inner := (), current_frame := Buffer.empty 2 2, prev_frame := none
      last_flushed := Buffer.empty 2 2 }
    [] (Buffer.empty 2 2) (Buffer.wf_empty 2 2) 2 0 0 1 (cellOf "A" .Red)
  refine ⟨Buffer.wf_empty 2 2, rfl, ?_, ?_, ?_⟩
  · exact h2.2.2.1 (by decide)
  · exact h.2.2.2.1 (by decide) (by decide)
  · exact h.2.2.2.2 (by decide) (by decide) (by decide) (by decide) (by decide)

/-! ## C10 — I/O error propagation through flush -/

namespace backend

theorem flush_buffer_to_inner_prev_frame {σ ε : Type} (io : InnerOps σ ε)
    (st : MorphState σ) (buf : Buffer) :
    ((flush_buffer_to_inner io st buf).2).prev_frame = st.prev_frame := by
  rcases hd : io.draw st.inner (bufferDiff st.last_flushed buf) with ⟨r1, s1⟩
  cases r1 with
  | error e => simp [flush_buffer_to_inner, hd]
  | ok u =>
    rcases hf : io.flushInner s1 with ⟨r2, s2⟩
    cases r2 <;> simp [flush_buffer_to_inner, hd, hf]

theorem transitionLoop_prev_frame {σ ε : Type} (io : InnerOps σ ε) (cfg : MorphConfig)
    (ops : FloatOps) (plan : InterpolationPlan) (samples : List ℚ) (st : MorphState σ) :
    ((transitionLoop io cfg ops plan samples st).2).prev_frame = st.prev_frame := by
  induction samples generalizing st with
  | nil => exact flush_buffer_to_inner_prev_frame io st _
  | cons e rest ih =>
    rcases hd : flush_buffer_to_inner io st
      (interpolate.render ops plan (cfg.easing (min (e / cfg.duration) 1))) with ⟨r1, st1⟩
    have hfb := flush_buffer_to_inner_prev_frame io st
      (interpolate.render ops plan (cfg.easing (min (e / cfg.duration) 1)))
    rw [hd] at hfb
    cases r1 with
    | error err =>
      simp only [transitionLoop, hd]
      exact hfb
    | ok u =>
      simp only [transitionLoop, hd]
      split
      · exact hfb
      · rw [ih st1]; exact hfb

theorem run_transition_prev_frame {σ ε : Type} (io : InnerOps σ ε) (cfg : MorphConfig)
    (ops : FloatOps) (uninit : ColorPair) (st : MorphState σ) (prev next : Buffer)
    (samples : List ℚ) :
    ((run_transition io cfg ops uninit st prev next samples).2).prev_frame = st.prev_frame :=
  transitionLoop_prev_frame io cfg ops _ samples st

end backend

/-- **C10.**  If the inner backend fails during a transition, `flush`
propagates that error and the resulting state has `prev_frame = None` (the
previous frame was taken and never restored); and whenever `prev_frame` is
`None`, `flush` draws the pending frame directly through
`flush_buffer_to_inner` — no transition — and only a successful direct draw
installs `prev_frame = Some(next)`. -/
theorem C10_flush_error_drops_prev_frame {σ ε : Type} (io : backend.InnerOps σ ε)
    (cfg : backend.MorphConfig) (ops : FloatOps) (uninit : ColorPair)
    (samples : List ℚ) (st : backend.MorphState σ) (prev : Buffer) (e : ε)
    (st2 : backend.MorphState σ) :
    (st.prev_frame = some prev →
      backend.run_transition io cfg ops uninit { st with prev_frame := none } prev
          st.current_frame samples = (.error e, st2) →
      backend.flush io cfg ops uninit samples st = (.error e, st2) ∧
        st2.prev_frame = none) ∧
    (st.prev_frame = none →
      (∀ e2 st3, backend.flush_buffer_to_inner io st st.current_frame = (.error e2, st3) →
        backend.flush io cfg ops uninit samples st = (.error e2, st3)) ∧
      (∀ u st3, backend.flush_buffer_to_inner io st st.current_frame = (.ok u, st3) →
        backend.flush io cfg ops uninit samples st =
          (.ok (), { st3 with prev_frame := some st.current_frame }))) := by
  constructor
  · intro hprev hrun
    constructor
    · unfold backend.flush
      rw [hprev]
      simp only [hrun]
    · have hp := backend.run_transition_prev_frame io cfg ops uninit
        { st with prev_frame := none } prev st.current_frame samples
      rw [hrun] at hp
      exact hp
  · intro hprev
    constructor
    · intro e2 st3 hfb
      unfold backend.flush
      rw [hprev]
      simp only [hfb]
    · intro u st3 hfb
      unfold backend.flush
      rw [hprev]
      simp only [hfb]

/-- A concrete inner backend whose `draw` always fails with error code 7. -/
def failInner : backend.InnerOps Unit ℕ where
  draw := fun s _ => (.error 7, s)
  flushInner := fun s => (.ok (), s)

/-- A concrete inner backend that always succeeds. -/
def okInner : backend.InnerOps Unit ℕ where
  draw := fun s _ => (.ok (), s)
  flushInner := fun s => (.ok (), s)

/-- A concrete adapter configuration for witnesses. -/
def cfg0 : backend.MorphConfig :=
  { weights := .LIQUID, duration := 1, easing := fun t => t, fps := 60 }

/-- A concrete adapter state whose previous frame is present. -/
def stWithPrev : backend.MorphState Unit :=
  { inner := (), current_frame := Buffer.empty 1 1
    prev_frame := some (Buffer.empty 1 1), last_flushed := Buffer.empty 1 1 }

/-- A concrete adapter state with no previous frame. -/
def stNoPrev : backend.MorphState Unit :=
  { inner := (), current_frame := Buffer.empty 1 1
    prev_frame := none, last_flushed := Buffer.empty 1 1 }

/-- **C10, witness**: with an inner backend that fails during the transition,
`flush` returns the error and drops `prev_frame`; with no previous frame and a
healthy inner backend, `flush` succeeds directly and installs it. -/
theorem C10_flush_error_drops_prev_frame_witness :
    (backend.flush failInner cfg0 ops0 uninit0 [] stWithPrev =
      (.error 7, { stWithPrev with prev_frame := none }) ∧
      ({ stWithPrev with prev_frame := none } : backend.MorphState Unit).prev_frame = none) ∧
    backend.flush okInner cfg0 ops0 uninit0 [] stNoPrev =
      (.ok (), { stNoPrev with
                 prev_frame := some (Buffer.empty 1 1)
                 last_flushed := Buffer.empty 1 1 }) := by
  constructor
  · exact (C10_flush_error_drops_prev_frame failInner cfg0 ops0 uninit0 [] stWithPrev
      (Buffer.empty 1 1) 7 { stWithPrev with prev_frame := none }).1 rfl rfl
  · exact (C10_flush_error_drops_prev_frame okInner cfg0 ops0 uninit0 [] stNoPrev
      (Buffer.empty 1 1) 0 stNoPrev).2 rfl |>.2 () { stNoPrev with last_flushed := Buffer.empty 1 1 } rfl

/-! ## Counting and grid lemmas -/

theorem countP_filterMap_general {α β : Type} (l : List α) (f : α → Option β) (q : β → Bool) :
    (l.filterMap f).countP q = l.countP (fun a => ((f a).map q).getD false) := by
  induction l with
  | nil => simp
  | cons a tl ih =>
    cases hf : f a with
    | none => simp [List.filterMap_cons, hf, List.countP_cons, ih]
    | some b => simp [List.filterMap_cons, hf, List.countP_cons, ih]

theorem countP_and_beq_of_nodup {α : Type} [DecidableEq α] (l : List α) (hl : l.Nodup)
    (p : α) (pred : α → Bool) :
    l.countP (fun a => pred a && decide (a = p)) = if p ∈ l ∧ pred p then 1 else 0 := by
  induction l with
  | nil => simp
  | cons a tl ih =>
    rw [List.nodup_cons] at hl
    rw [List.countP_cons]
    by_cases hap : a = p
    · subst hap
      have hz : tl.countP (fun b => pred b && decide (b = a)) = 0 := by
        rw [List.countP_eq_zero]
        intro b hb
        simp only [Bool.and_eq_true, decide_eq_true_eq, not_and]
        intro _ hba
        exact absurd (hba ▸ hb) hl.1
      rw [hz]
      by_cases hpa : pred a = true <;> simp [hpa, List.mem_cons]
    · have hfalse : (pred a && decide (a = p)) = false := by
        simp [hap]
      rw [hfalse, ih hl.2]
      simp only [List.mem_cons]
      by_cases hmem : p ∈ tl ∧ pred p = true
      · simp [hmem, hmem.1, Or.inr hmem.1]
      · simp only [if_neg hmem]
        have hnot : ¬((p = a ∨ p ∈ tl) ∧ pred p = true) := by
          intro ⟨hor, hp⟩
          rcases hor with h1 | h2
          · exact hap h1.symm
          · exact hmem ⟨h2, hp⟩
        simp [hnot]

theorem countP_range_getD {α : Type} (l : List α) (d : α) (q : α → Bool) :
    (List.range l.length).countP (fun i => q (l.getD i d)) = l.countP q := by
  induction l with
  | nil => simp
  | cons a tl ih =>
    rw [List.length_cons, List.range_succ_eq_map, List.countP_cons, List.countP_map]
    simp only [List.getD_cons_zero, List.getD_cons_succ, Function.comp_def]
    rw [ih, List.countP_cons]

theorem countP_add_partition {α : Type} (l : List α) (q q1 q2 : α → Bool)
    (h : ∀ a, (q a = (q1 a || q2 a)) ∧ (q1 a && q2 a) = false) :
    l.countP q1 + l.countP q2 = l.countP q := by
  induction l with
  | nil => simp
  | cons a tl ih =>
    simp only [List.countP_cons]
    rw [← ih]
    have ha := h a
    cases h1 : q1 a <;> cases h2 : q2 a <;> rw [h1, h2] at ha
    · simp only [Bool.or_self] at ha
      simp [ha.1]
    · simp only [Bool.false_or] at ha
      simp [ha.1]
      omega
    · simp only [Bool.or_false] at ha
      simp [ha.1]
      omega
    · exact absurd ha.2 (by simp)

theorem countP_eq_one_of_unique {α : Type} (l : List α) (q : α → Bool) (a : α)
    (hl : l.Nodup) (ha : a ∈ l) (hq : q a = true) (huniq : ∀ b ∈ l, q b = true → b = a) :
    l.countP q = 1 := by
  induction l with
  | nil => simp at ha
  | cons b tl ih =>
    rw [List.nodup_cons] at hl
    rw [List.countP_cons]
    rcases List.mem_cons.mp ha with hba | hatl
    · subst hba
      have hz : tl.countP q = 0 := by
        rw [List.countP_eq_zero]
        intro c hc hqc
        exact hl.1 ((huniq c (List.mem_cons_of_mem _ hc) hqc) ▸ hc)
      simp [hz, hq]
    · have hqb : q b = false := by
        by_contra hqb
        have hba := huniq b (List.mem_cons_self _ _) (by simpa using hqb)
        rw [hba] at hl
        exact hl.1 hatl
      rw [ih hl.2 hatl (fun c hc hqc => huniq c (List.mem_cons_of_mem _ hc) hqc)]
      simp [hqb]

namespace solver

theorem positions_succ (w h : ℕ) :
    positions w (h + 1) = positions w h ++ (List.range w).map (fun x => (x, h)) := by
  simp [positions, List.range_succ]

theorem positions_length (w h : ℕ) : (positions w h).length = w * h := by
  induction h with
  | zero => simp [positions]
  | succ h ih =>
    rw [positions_succ, List.length_append, ih, List.length_map, List.length_range]
    ring

theorem mem_positions {w h : ℕ} {p : ℕ × ℕ} :
    p ∈ positions w h ↔ p.1 < w ∧ p.2 < h := by
  induction h with
  | zero => simp [positions]
  | succ h ih =>
    rw [positions_succ, List.mem_append, ih]
    constructor
    · rintro (⟨h1, h2⟩ | hrow)
      · exact ⟨h1, Nat.lt_succ_of_lt h2⟩
      · rcases List.mem_map.mp hrow with ⟨x, hx, hxp⟩
        rw [← hxp]
        exact ⟨List.mem_range.mp hx, Nat.lt_succ_self h⟩
    · rintro ⟨h1, h2⟩
      rcases Nat.lt_succ_iff_lt_or_eq.mp h2 with h2' | h2'
      · exact Or.inl ⟨h1, h2'⟩
      · right
        refine List.mem_map.mpr ⟨p.1, List.mem_range.mpr h1, ?_⟩
        rw [← h2']

theorem positions_nodup (w h : ℕ) : (positions w h).Nodup := by
  induction h with
  | zero => simp [positions]
  | succ h ih =>
    rw [positions_succ]
    refine List.Nodup.append ih ?_ ?_
    · exact (List.nodup_range w).map (fun x y hxy => congrArg Prod.fst hxy)
    · intro p hp hp'
      rcases List.mem_map.mp hp' with ⟨x, _, hxp⟩
      have h2 := (mem_positions.mp hp).2
      rw [← hxp] at h2
      exact Nat.lt_irrefl h h2

end solver

/-! ## Hungarian extraction properties -/

theorem foldl_invariant {α β : Type} (P : β → Prop) (step : β → α → β) (l : List α)
    (init : β) (h0 : P init) (hstep : ∀ b a, a ∈ l → P b → P (step b a)) :
    P (l.foldl step init) := by
  induction l generalizing init with
  | nil => exact h0
  | cons a tl ih =>
    exact ih (step init a) (hstep init a (.head _) h0)
      (fun b x hx hb => hstep b x (.tail _ hx) hb)

theorem getD_set_cases {α : Type} (l : List α) (k i : ℕ) (v d : α) :
    (l.set k v).getD i d = if k = i ∧ k < l.length then v else l.getD i d := by
  by_cases h : k = i ∧ k < l.length
  · obtain ⟨rfl, hk⟩ := h
    simp [List.getD, List.getElem?_set_self hk, hk]
  · rw [if_neg h]
    by_cases hki : k = i
    · subst hki
      have hk : l.length ≤ k := by
        rcases Nat.lt_or_ge k l.length with hlt | hge
        · exact absurd ⟨rfl, hlt⟩ h
        · exact hge
      rw [List.set_eq_of_length_le hk]
    · simp [List.getD, List.getElem?_set_ne hki]

theorem length_two_of_two_mem {α : Type} {l : List α} {a b : α} (ha : a ∈ l) (hb : b ∈ l)
    (hab : a ≠ b) : 2 ≤ l.length := by
  induction l with
  | nil => simp at ha
  | cons c tl ih =>
    rcases List.mem_cons.mp ha with rfl | hatl
    · rcases List.mem_cons.mp hb with rfl | hbtl
      · exact absurd rfl hab
      · have : 1 ≤ tl.length := List.length_pos.mpr (List.ne_nil_of_mem hbtl)
        simp only [List.length_cons]
        omega
    · have : 1 ≤ tl.length := List.length_pos.mpr (List.ne_nil_of_mem hatl)
      simp only [List.length_cons]
      omega

theorem two_le_countP_of_two {α : Type} {l : List α} {q : α → Bool} {a b : α}
    (ha : a ∈ l) (hb : b ∈ l) (hab : a ≠ b) (qa : q a = true) (qb : q b = true) :
    2 ≤ l.countP q := by
  rw [List.countP_eq_length_filter]
  exact length_two_of_two_mem (List.mem_filter.mpr ⟨ha, qa⟩) (List.mem_filter.mpr ⟨hb, qb⟩) hab

namespace solver

/-- The final assignment map computed by `hungarian` before extraction. -/
def hungarianAssign (cost : List (List ℚ)) (n m : ℕ) : ℕ → ℕ :=
  (((List.range (max n m)).map (· + 1)).foldl
    (augmentRow (max n m) (fun i j => .fin ((cost.getD i []).getD j 0)))
    { u := fun _ => .fin 0, v := fun _ => .fin 0
      assign := fun _ => 0, way := fun _ => 0 }).assign

theorem hungarian_eq_extract (cost : List (List ℚ)) (n m : ℕ) :
    hungarian cost n m = extract (hungarianAssign cost n m) n m (max n m) := rfl

theorem extract_spec (assign : ℕ → ℕ) (n m size : ℕ) :
    (extract assign n m size).length = n ∧
    ∀ i j, (extract assign n m size).getD i none = some j →
      j < m ∧ i < n ∧ assign (j + 1) = i + 1 := by
  unfold extract
  refine foldl_invariant
    (fun res : List (Option ℕ) => res.length = n ∧
      ∀ i j, res.getD i none = some j → j < m ∧ i < n ∧ assign (j + 1) = i + 1)
    (fun res j =>
      let i := assign j
      if 1 ≤ i ∧ i ≤ n ∧ j ≤ m then res.set (i - 1) (some (j - 1)) else res)
    ((List.range size).map (· + 1)) (List.replicate n none) ?_ ?_
  · refine ⟨List.length_replicate _ _, ?_⟩
    intro i j h
    rw [List.getD_eq_getElem?_getD, List.getElem?_replicate] at h
    split at h <;> simp at h
  · intro res jj hjj ⟨hlen, hP⟩
    have hjj1 : 1 ≤ jj := by
      rcases List.mem_map.mp hjj with ⟨x, _, hx⟩
      omega
    dsimp only
    by_cases hc : 1 ≤ assign jj ∧ assign jj ≤ n ∧ jj ≤ m
    · rw [if_pos hc]
      refine ⟨by rw [List.length_set]; exact hlen, ?_⟩
      intro i j hij
      rw [getD_set_cases] at hij
      by_cases hcase : assign jj - 1 = i ∧ assign jj - 1 < res.length
      · rw [if_pos hcase] at hij
        rw [Option.some_inj] at hij
        subst hij
        refine ⟨by omega, by omega, ?_⟩
        have hjj2 : jj - 1 + 1 = jj := by omega
        rw [hjj2]
        omega
      · rw [if_neg hcase] at hij
        exact hP i j hij
    · rw [if_neg hc]
      exact ⟨hlen, hP⟩

theorem hungarian_length (cost : List (List ℚ)) (n m : ℕ) :
    (hungarian cost n m).length = n := by
  rw [hungarian_eq_extract]
  exact (extract_spec _ n m _).1

theorem hungarian_range (cost : List (List ℚ)) (n m : ℕ) (i j : ℕ)
    (h : (hungarian cost n m).getD i none = some j) : j < m ∧ i < n := by
  rw [hungarian_eq_extract] at h
  have := (extract_spec _ n m _).2 i j h
  exact ⟨this.1, this.2.1⟩

theorem hungarian_inj (cost : List (List ℚ)) (n m : ℕ) (i1 i2 j : ℕ)
    (h1 : (hungarian cost n m).getD i1 none = some j)
    (h2 : (hungarian cost n m).getD i2 none = some j) : i1 = i2 := by
  rw [hungarian_eq_extract] at h1 h2
  have e1 := ((extract_spec _ n m _).2 i1 j h1).2.2
  have e2 := ((extract_spec _ n m _).2 i2 j h2).2.2
  omega

end solver

/-! ## Classification lemmas -/

namespace solver

/-- The five possible outcomes of the classification branch chain. -/
theorem classify_eq (ops : FloatOps) (x y : ℕ) (sc dc : Cell) :
    classify ops x y sc dc = .stable ⟨x, y, sc.symbol, sc.fg, sc.bg, sc.modifier⟩ ∨
    classify ops x y sc dc = .dstUn (x, y, CellSnapshot.from_cell ops dc) ∨
    classify ops x y sc dc = .srcUn (x, y, CellSnapshot.from_cell ops sc) ∨
    classify ops x y sc dc = .mutating ⟨x, y, sc.symbol, dc.symbol,
      ColorPair.from_color ops sc.fg, ColorPair.from_color ops dc.fg,
      ColorPair.from_color ops sc.bg, ColorPair.from_color ops dc.bg,
      sc.modifier, dc.modifier⟩ ∨
    classify ops x y sc dc = .stable ⟨x, y, dc.symbol, dc.fg, dc.bg, dc.modifier⟩ := by
  unfold classify
  dsimp only
  split_ifs
  · exact Or.inl rfl
  · exact Or.inr (Or.inl rfl)
  · exact Or.inr (Or.inr (Or.inl rfl))
  · exact Or.inr (Or.inr (Or.inr (Or.inl rfl)))
  · exact Or.inr (Or.inr (Or.inr (Or.inr rfl)))

theorem classStable_pos {ops : FloatOps} {x y : ℕ} {sc dc : Cell} {c : StableCell}
    (h : classStable (classify ops x y sc dc) = some c) : c.x = x ∧ c.y = y := by
  rcases classify_eq ops x y sc dc with hc | hc | hc | hc | hc <;> rw [hc] at h <;>
    simp only [classStable, Option.some_inj] at h <;>
    first
      | exact Option.noConfusion h
      | (subst h; exact ⟨rfl, rfl⟩)

theorem classMutating_pos {ops : FloatOps} {x y : ℕ} {sc dc : Cell} {c : MutatingCell}
    (h : classMutating (classify ops x y sc dc) = some c) : c.x = x ∧ c.y = y := by
  rcases classify_eq ops x y sc dc with hc | hc | hc | hc | hc <;> rw [hc] at h <;>
    simp only [classMutating, Option.some_inj] at h <;>
    first
      | exact Option.noConfusion h
      | (subst h; exact ⟨rfl, rfl⟩)

theorem classSrcUn_pos {ops : FloatOps} {x y : ℕ} {sc dc : Cell} {e : ℕ × ℕ × CellSnapshot}
    (h : classSrcUn (classify ops x y sc dc) = some e) : e.1 = x ∧ e.2.1 = y := by
  rcases classify_eq ops x y sc dc with hc | hc | hc | hc | hc <;> rw [hc] at h <;>
    simp only [classSrcUn, Option.some_inj] at h <;>
    first
      | exact Option.noConfusion h
      | (subst h; exact ⟨rfl, rfl⟩)

theorem classDstUn_pos {ops : FloatOps} {x y : ℕ} {sc dc : Cell} {e : ℕ × ℕ × CellSnapshot}
    (h : classDstUn (classify ops x y sc dc) = some e) : e.1 = x ∧ e.2.1 = y := by
  rcases classify_eq ops x y sc dc with hc | hc | hc | hc | hc <;> rw [hc] at h <;>
    simp only [classDstUn, Option.some_inj] at h <;>
    first
      | exact Option.noConfusion h
      | (subst h; exact ⟨rfl, rfl⟩)

theorem classify_exactly_one (c : CellClass) :
    (if (classStable c).isSome then 1 else 0) + (if (classMutating c).isSome then 1 else 0) +
    (if (classSrcUn c).isSome then 1 else 0) + (if (classDstUn c).isSome then 1 else 0)
      = 1 := by
  cases c <;> rfl

/-- Position-indexed count of a classification bucket: each grid position
contributes its own push (if any) and nothing else. -/
theorem count_filterMap_classify {β : Type} (w h : ℕ)
    (cls : ℕ × ℕ → CellClass) (pr : CellClass → Option β) (posOf : β → ℕ × ℕ)
    (hpos : ∀ p b, pr (cls p) = some b → posOf b = p) (p : ℕ × ℕ) :
    ((positions w h).filterMap (fun q => pr (cls q))).countP
        (fun b => decide (posOf b = p))
      = if p.1 < w ∧ p.2 < h ∧ (pr (cls p)).isSome then 1 else 0 := by
  rw [countP_filterMap_general]
  have hpred : ∀ q ∈ positions w h,
      (((pr (cls q)).map (fun b => decide (posOf b = p))).getD false)
        = ((pr (cls q)).isSome && decide (q = p)) := by
    intro q _
    cases hq : pr (cls q) with
    | none => rfl
    | some b =>
      show decide (posOf b = p) = (true && decide (q = p))
      rw [hpos q b hq, Bool.true_and]
  rw [List.countP_congr (fun q hq => by rw [hpred q hq])]
  rw [countP_and_beq_of_nodup _ (positions_nodup w h) p (fun q => (pr (cls q)).isSome)]
  by_cases hmem : p.1 < w ∧ p.2 < h
  · by_cases hsome : (pr (cls p)).isSome
    · rw [if_pos ⟨mem_positions.mpr hmem, hsome⟩, if_pos ⟨hmem.1, hmem.2, hsome⟩]
    · rw [if_neg (fun hh => hsome hh.2), if_neg (fun hh => hsome hh.2.2)]
  · rw [if_neg (fun hh => hmem (mem_positions.mp hh.1)),
      if_neg (fun hh => hmem ⟨hh.1, hh.2.1⟩)]

end solver

/-! ## Redistribution counts of solve_unmatched -/

theorem getD_eq_getElem {α : Type} (l : List α) (d : α) {i : ℕ} (h : i < l.length) :
    l.getD i d = l[i] := by
  rw [List.getD_eq_getElem?_getD, List.getElem?_eq_getElem h, Option.getD_some]

theorem getD_mem {α : Type} (l : List α) (d : α) {i : ℕ} (h : i < l.length) :
    l.getD i d ∈ l := by
  rw [getD_eq_getElem l d h]
  exact List.getElem_mem h

theorem two_le_countP_of_two_idx {α : Type} (l : List α) (d : α) (q : α → Bool)
    {j1 j2 : ℕ} (h1 : j1 < l.length) (h2 : j2 < l.length) (hne : j1 ≠ j2)
    (q1 : q (l.getD j1 d) = true) (q2 : q (l.getD j2 d) = true) : 2 ≤ l.countP q := by
  rw [← countP_range_getD l d q]
  exact two_le_countP_of_two (List.mem_range.mpr h1) (List.mem_range.mpr h2) hne q1 q2

namespace solver

/-- Each unmatched src cell becomes exactly one entry: the src endpoint of a
`Displaced` entry or a `Disappearing` orphan, at its own position. -/
theorem src_side_count (uninit : ColorPair) (A : List (Option ℕ)) (costf : ℕ → ℕ → ℚ)
    (thr : ℚ) (sU dU : List (ℕ × ℕ × CellSnapshot)) (p : ℕ × ℕ) :
    (displacedList A costf thr sU dU).countP (fun c => decide ((c.src_x, c.src_y) = p)) +
    (disappearingList uninit A costf thr sU).countP (fun c => decide ((c.x, c.y) = p)) =
    sU.countP (fun e => decide ((e.1, e.2.1) = p)) := by
  unfold displacedList disappearingList
  rw [countP_filterMap_general, countP_filterMap_general]
  rw [countP_add_partition _
    (fun i => decide (((sU.getD i dfltSnap).1, (sU.getD i dfltSnap).2.1) = p)) _ _ ?_]
  · exact countP_range_getD sU dfltSnap (fun e => decide ((e.1, e.2.1) = p))
  · intro i
    cases hA : A.getD i none with
    | none => simp [hA, orphan_from]
    | some j =>
      by_cases hc : costf i j ≤ thr
      · simp [hA, hc, displaced_of, orphan_from]
      · simp [hA, hc, displaced_of, orphan_from]

/-- Each unmatched dst cell becomes exactly one entry: the dst endpoint of a
`Displaced` entry (when some row is matched to it within threshold) or an
`Appearing` orphan, at its own position.  Uses that the assignment returned by
the extraction is injective and within range. -/
theorem dst_side_count (uninit : ColorPair) (A : List (Option ℕ)) (costf : ℕ → ℕ → ℚ)
    (thr : ℚ) (sU dU : List (ℕ × ℕ × CellSnapshot)) (p : ℕ × ℕ)
    (hlen : ∀ i j, A.getD i none = some j → j < dU.length ∧ i < sU.length)
    (hinj : ∀ i1 i2 j, A.getD i1 none = some j → A.getD i2 none = some j → i1 = i2)
    (hd : dU.countP (fun e => decide ((e.1, e.2.1) = p)) ≤ 1) :
    (displacedList A costf thr sU dU).countP (fun c => decide ((c.dst_x, c.dst_y) = p)) +
    (appearingList uninit (dst_matchedB A costf thr sU.length) dU).countP
      (fun c => decide ((c.x, c.y) = p)) =
    dU.countP (fun e => decide ((e.1, e.2.1) = p)) := by
  unfold displacedList appearingList
  rw [countP_filterMap_general, countP_filterMap_general]
  have hstep : ∀ (i : ℕ) (oj : Option ℕ),
      (((((match oj with
          | some j =>
            if costf i j ≤ thr then
              some (displaced_of (sU.getD i dfltSnap) (dU.getD j dfltSnap))
            else none
          | none => none : Option DisplacedCell)).map
            (fun c => decide ((c.dst_x, c.dst_y) = p))).getD false) = true ↔
        (∃ j, oj = some j ∧ costf i j ≤ thr ∧
          ((dU.getD j dfltSnap).1, (dU.getD j dfltSnap).2.1) = p)) := by
    intro i oj
    cases oj with
    | none => simp
    | some j =>
      by_cases hc : costf i j ≤ thr
      · simp [hc, displaced_of]
      · simp [hc]
  have hstepAP : ∀ (j : ℕ),
      (((((if dst_matchedB A costf thr sU.length j then none
          else some (orphan_from uninit (dU.getD j dfltSnap).1 (dU.getD j dfltSnap).2.1
            (dU.getD j dfltSnap).2.2) : Option OrphanCell)).map
            (fun c => decide ((c.x, c.y) = p))).getD false) = true ↔
        (dst_matchedB A costf thr sU.length j = false ∧
          ((dU.getD j dfltSnap).1, (dU.getD j dfltSnap).2.1) = p)) := by
    intro j
    by_cases hmj : dst_matchedB A costf thr sU.length j = true
    · simp [hmj]
    · simp [hmj, orphan_from]
  by_cases hex : ∃ j, j < dU.length ∧ ((dU.getD j dfltSnap).1, (dU.getD j dfltSnap).2.1) = p
  · obtain ⟨j0, hj0, hp0⟩ := hex
    have huniq : ∀ j, j < dU.length →
        ((dU.getD j dfltSnap).1, (dU.getD j dfltSnap).2.1) = p → j = j0 := by
      intro j hj hpj
      by_contra hne
      have h2 := two_le_countP_of_two_idx dU dfltSnap
        (fun e => decide ((e.1, e.2.1) = p)) hj hj0 hne
        (decide_eq_true hpj) (decide_eq_true hp0)
      omega
    have hdc1 : dU.countP (fun e => decide ((e.1, e.2.1) = p)) = 1 := by
      refine le_antisymm hd ?_
      exact List.countP_pos_iff.mpr ⟨dU.getD j0 dfltSnap, getD_mem dU dfltSnap hj0,
        decide_eq_true hp0⟩
    rw [hdc1]
    by_cases hm : dst_matchedB A costf thr sU.length j0 = true
    · obtain ⟨i0, hi0r, hi0⟩ := List.any_eq_true.mp hm
      rw [Bool.and_eq_true, beq_iff_eq, decide_eq_true_eq] at hi0
      have hDD1 : (List.range sU.length).countP (fun i =>
          ((match A.getD i none with
            | some j =>
              if costf i j ≤ thr then
                some (displaced_of (sU.getD i dfltSnap) (dU.getD j dfltSnap))
              else none
            | none => none : Option DisplacedCell).map
              (fun c => decide ((c.dst_x, c.dst_y) = p))).getD false) = 1 := by
        refine countP_eq_one_of_unique _ _ i0 (List.nodup_range _) hi0r
          ((hstep i0 (A.getD i0 none)).mpr ⟨j0, hi0.1, hi0.2, hp0⟩) ?_
        intro i' hi'r hsat
        obtain ⟨j', hA', hc', hpp⟩ := (hstep i' (A.getD i' none)).mp hsat
        have hjj : j' = j0 := huniq j' (hlen i' j' hA').1 hpp
        exact hinj i' i0 j0 (hjj ▸ hA') hi0.1
      have hAP0 : (List.range dU.length).countP (fun j =>
          ((if dst_matchedB A costf thr sU.length j then none
            else some (orphan_from uninit (dU.getD j dfltSnap).1 (dU.getD j dfltSnap).2.1
              (dU.getD j dfltSnap).2.2) : Option OrphanCell).map
              (fun c => decide ((c.x, c.y) = p))).getD false) = 0 := by
        rw [List.countP_eq_zero]
        intro j hjr hsat
        obtain ⟨hmf, hpj⟩ := (hstepAP j).mp hsat
        have hje := huniq j (List.mem_range.mp hjr) hpj
        rw [hje] at hmf
        rw [hmf] at hm
        exact Bool.false_ne_true hm
      rw [hDD1, hAP0]
    · have hDD0 : (List.range sU.length).countP (fun i =>
          ((match A.getD i none with
            | some j =>
              if costf i j ≤ thr then
                some (displaced_of (sU.getD i dfltSnap) (dU.getD j dfltSnap))
              else none
            | none => none : Option DisplacedCell).map
              (fun c => decide ((c.dst_x, c.dst_y) = p))).getD false) = 0 := by
        rw [List.countP_eq_zero]
        intro i hir hsat
        obtain ⟨j', hA', hc', hpp⟩ := (hstep i (A.getD i none)).mp hsat
        have hjj : j' = j0 := huniq j' (hlen i j' hA').1 hpp
        apply hm
        refine List.any_eq_true.mpr ⟨i, hir, ?_⟩
        rw [Bool.and_eq_true, beq_iff_eq, decide_eq_true_eq]
        exact ⟨hjj ▸ hA', hjj ▸ hc'⟩
      have hAP1 : (List.range dU.length).countP (fun j =>
          ((if dst_matchedB A costf thr sU.length j then none
            else some (orphan_from uninit (dU.getD j dfltSnap).1 (dU.getD j dfltSnap).2.1
              (dU.getD j dfltSnap).2.2) : Option OrphanCell).map
              (fun c => decide ((c.x, c.y) = p))).getD false) = 1 := by
        refine countP_eq_one_of_unique _ _ j0 (List.nodup_range _) (List.mem_range.mpr hj0)
          ((hstepAP j0).mpr ⟨by simpa using hm, hp0⟩) ?_
        intro j hjr hsat
        exact huniq j (List.mem_range.mp hjr) ((hstepAP j).mp hsat).2
      rw [hDD0, hAP1]
  · push_neg at hex
    have hdc : dU.countP (fun e => decide ((e.1, e.2.1) = p)) = 0 := by
      rw [List.countP_eq_zero]
      intro e he hsat
      obtain ⟨k, hk, hke⟩ := List.mem_iff_getElem.mp he
      rw [decide_eq_true_eq] at hsat
      refine hex k hk ?_
      rw [getD_eq_getElem dU dfltSnap hk, hke]
      exact hsat
    have hDD0 : (List.range sU.length).countP (fun i =>
        ((match A.getD i none with
          | some j =>
            if costf i j ≤ thr then
              some (displaced_of (sU.getD i dfltSnap) (dU.getD j dfltSnap))
            else none
          | none => none : Option DisplacedCell).map
            (fun c => decide ((c.dst_x, c.dst_y) = p))).getD false) = 0 := by
      rw [List.countP_eq_zero]
      intro i hir hsat
      obtain ⟨j', hA', hc', hpp⟩ := (hstep i (A.getD i none)).mp hsat
      exact hex j' (hlen i j' hA').1 hpp
    have hAP0 : (List.range dU.length).countP (fun j =>
        ((if dst_matchedB A costf thr sU.length j then none
          else some (orphan_from uninit (dU.getD j dfltSnap).1 (dU.getD j dfltSnap).2.1
            (dU.getD j dfltSnap).2.2) : Option OrphanCell).map
            (fun c => decide ((c.x, c.y) = p))).getD false) = 0 := by
      rw [List.countP_eq_zero]
      intro j hjr hsat
      exact hex j (List.mem_range.mp hjr) ((hstepAP j).mp hsat).2
    rw [hdc, hDD0, hAP0]

end solver

/-! ## C3 — coverage invariant I1 -/

/-- How many times grid position `p` is covered by the plan: as a Stable or
Mutating or Appearing or Disappearing entry at `p`, or as the src or dst
endpoint of a Displaced entry. -/
def planOcc (plan : InterpolationPlan) (p : ℕ × ℕ) : ℕ :=
  plan.stable.countP (fun c => decide ((c.x, c.y) = p)) +
  plan.mutating.countP (fun c => decide ((c.x, c.y) = p)) +
  plan.appearing.countP (fun c => decide ((c.x, c.y) = p)) +
  plan.disappearing.countP (fun c => decide ((c.x, c.y) = p)) +
  plan.displaced.countP (fun c => decide ((c.src_x, c.src_y) = p)) +
  plan.displaced.countP (fun c => decide ((c.dst_x, c.dst_y) = p))

namespace solver

theorem solve_unmatched_counts (ops : FloatOps) (uninit : ColorPair) (w : MorphWeights)
    (sU dU : List (ℕ × ℕ × CellSnapshot)) (p : ℕ × ℕ)
    (hd : dU.countP (fun e => decide ((e.1, e.2.1) = p)) ≤ 1) :
    ((solve_unmatched ops uninit sU dU w).1.countP
        (fun c => decide ((c.src_x, c.src_y) = p)) +
      (solve_unmatched ops uninit sU dU w).2.2.countP
        (fun c => decide ((c.x, c.y) = p)) =
      sU.countP (fun e => decide ((e.1, e.2.1) = p))) ∧
    ((solve_unmatched ops uninit sU dU w).1.countP
        (fun c => decide ((c.dst_x, c.dst_y) = p)) +
      (solve_unmatched ops uninit sU dU w).2.1.countP
        (fun c => decide ((c.x, c.y) = p)) =
      dU.countP (fun e => decide ((e.1, e.2.1) = p))) := by
  unfold solve_unmatched
  split_ifs with h1 h2 h3
  · rw [Bool.and_eq_true, List.isEmpty_iff, List.isEmpty_iff] at h1
    rw [h1.1, h1.2]
    simp
  · rw [List.isEmpty_iff] at h2
    rw [h2]
    constructor
    · simp
    · rw [List.countP_map]
      simp only [List.countP_nil, Nat.zero_add]
      rfl
  · rw [List.isEmpty_iff] at h3
    rw [h3]
    constructor
    · rw [List.countP_map]
      simp only [List.countP_nil, Nat.zero_add]
      rfl
    · simp
  · dsimp only
    constructor
    · exact src_side_count uninit _ _ _ sU dU p
    · refine dst_side_count uninit _ _ _ sU dU p ?_ ?_ hd
      · intro i j hA
        exact hungarian_range _ sU.length dU.length i j hA
      · intro i1 i2 j hA1 hA2
        exact hungarian_inj _ sU.length dU.length i1 i2 j hA1 hA2

theorem diff_stable_eq (ops : FloatOps) (uninit : ColorPair) (src dst : Buffer)
    (w : MorphWeights) :
    (diff ops uninit src dst w).stable =
      (positions src.width src.height).filterMap (fun q =>
        classStable (classify ops q.1 q.2 (src.get q.1 q.2) (dst.get q.1 q.2))) := rfl

theorem diff_mutating_eq (ops : FloatOps) (uninit : ColorPair) (src dst : Buffer)
    (w : MorphWeights) :
    (diff ops uninit src dst w).mutating =
      (positions src.width src.height).filterMap (fun q =>
        classMutating (classify ops q.1 q.2 (src.get q.1 q.2) (dst.get q.1 q.2))) := rfl

theorem diff_sol_eq (ops : FloatOps) (uninit : ColorPair) (src dst : Buffer)
    (w : MorphWeights) :
    ((diff ops uninit src dst w).displaced, (diff ops uninit src dst w).appearing,
      (diff ops uninit src dst w).disappearing) =
      solve_unmatched ops uninit
        ((positions src.width src.height).filterMap (fun q =>
          classSrcUn (classify ops q.1 q.2 (src.get q.1 q.2) (dst.get q.1 q.2))))
        ((positions src.width src.height).filterMap (fun q =>
          classDstUn (classify ops q.1 q.2 (src.get q.1 q.2) (dst.get q.1 q.2)))) w := rfl

end solver

set_option maxHeartbeats 1600000 in
/-- **C3.**  Coverage invariant I1: for equal-sized buffers, every grid
position is covered by exactly one plan entry — Stable, Mutating, Appearing,
Disappearing, the src endpoint of a Displaced entry, or the dst endpoint of a
Displaced entry. -/
theorem C3_every_position_exactly_once (ops : FloatOps) (uninit : ColorPair)
    (src dst : Buffer) (w : MorphWeights)
    (hw : dst.width = src.width) (hh : dst.height = src.height)
    (p : ℕ × ℕ) (hp : p.1 < src.width ∧ p.2 < src.height) :
    planOcc (solver.diff ops uninit src dst w) p = 1 := by
  classical
  set W := src.width with hW
  set H := src.height with hH
  set cls := fun q : ℕ × ℕ => solver.classify ops q.1 q.2 (src.get q.1 q.2) (dst.get q.1 q.2)
    with hcls
  have hS := solver.count_filterMap_classify W H cls solver.classStable
    (fun c => (c.x, c.y))
    (fun q b hb => by
      have hq := solver.classStable_pos hb
      cases q
      simp only at hq ⊢
      rw [hq.1, hq.2]) p
  have hM := solver.count_filterMap_classify W H cls solver.classMutating
    (fun c => (c.x, c.y))
    (fun q b hb => by
      have hq := solver.classMutating_pos hb
      cases q
      simp only at hq ⊢
      rw [hq.1, hq.2]) p
  have hSU := solver.count_filterMap_classify W H cls solver.classSrcUn
    (fun e => (e.1, e.2.1))
    (fun q b hb => by
      have hq := solver.classSrcUn_pos hb
      cases q
      simp only at hq ⊢
      rw [hq.1, hq.2]) p
  have hDU := solver.count_filterMap_classify W H cls solver.classDstUn
    (fun e => (e.1, e.2.1))
    (fun q b hb => by
      have hq := solver.classDstUn_pos hb
      cases q
      simp only at hq ⊢
      rw [hq.1, hq.2]) p
  have hdle : ((solver.positions W H).filterMap (fun q =>
      solver.classDstUn (cls q))).countP (fun e => decide ((e.1, e.2.1) = p)) ≤ 1 := by
    rw [hDU]
    split_ifs <;> omega
  have hsol := solver.solve_unmatched_counts ops uninit w
    ((solver.positions W H).filterMap (fun q => solver.classSrcUn (cls q)))
    ((solver.positions W H).filterMap (fun q => solver.classDstUn (cls q))) p hdle
  have h0 : planOcc (solver.diff ops uninit src dst w) p =
      ((solver.positions W H).filterMap (fun q => solver.classStable (cls q))).countP
        (fun c => decide ((c.x, c.y) = p)) +
      ((solver.positions W H).filterMap (fun q => solver.classMutating (cls q))).countP
        (fun c => decide ((c.x, c.y) = p)) +
      (solver.solve_unmatched ops uninit
        ((solver.positions W H).filterMap (fun q => solver.classSrcUn (cls q)))
        ((solver.positions W H).filterMap (fun q => solver.classDstUn (cls q))) w).2.1.countP
        (fun c => decide ((c.x, c.y) = p)) +
      (solver.solve_unmatched ops uninit
        ((solver.positions W H).filterMap (fun q => solver.classSrcUn (cls q)))
        ((solver.positions W H).filterMap (fun q => solver.classDstUn (cls q))) w).2.2.countP
        (fun c => decide ((c.x, c.y) = p)) +
      (solver.solve_unmatched ops uninit
        ((solver.positions W H).filterMap (fun q => solver.classSrcUn (cls q)))
        ((solver.positions W H).filterMap (fun q => solver.classDstUn (cls q))) w).1.countP
        (fun c => decide ((c.src_x, c.src_y) = p)) +
      (solver.solve_unmatched ops uninit
        ((solver.positions W H).filterMap (fun q => solver.classSrcUn (cls q)))
        ((solver.positions W H).filterMap (fun q => solver.classDstUn (cls q))) w).1.countP
        (fun c => decide ((c.dst_x, c.dst_y) = p)) := rfl
  rw [h0, hS, hM]
  have hsrc := hsol.1
  have hdst := hsol.2
  rw [hSU] at hsrc
  rw [hDU] at hdst
  have hfinal :
      (if p.1 < W ∧ p.2 < H ∧ (solver.classStable (cls p)).isSome then 1 else 0) +
      (if p.1 < W ∧ p.2 < H ∧ (solver.classMutating (cls p)).isSome then 1 else 0) +
      (if p.1 < W ∧ p.2 < H ∧ (solver.classSrcUn (cls p)).isSome then 1 else 0) +
      (if p.1 < W ∧ p.2 < H ∧ (solver.classDstUn (cls p)).isSome then 1 else 0) = 1 := by
    cases hc : cls p <;>
      simp [solver.classStable, solver.classMutating, solver.classSrcUn,
        solver.classDstUn, hp.1, hp.2]
  omega

/-- **C3, witness**: a concrete 2×1 pair covering a mutating and a displaced
position. -/
theorem C3_every_position_exactly_once_witness :
    planOcc (solver.diff ops0 uninit0 (make_buffer 2 1 [((0, 0), "A", .Red)])
      (make_buffer 2 1 [((1, 0), "A", .Red)]) .LIQUID) (0, 0) = 1 ∧
    planOcc (solver.diff ops0 uninit0 (make_buffer 2 1 [((0, 0), "A", .Red)])
      (make_buffer 2 1 [((1, 0), "A", .Red)]) .LIQUID) (1, 0) = 1 := by
  exact ⟨C3_every_position_exactly_once ops0 uninit0
      (make_buffer 2 1 [((0, 0), "A", .Red)]) (make_buffer 2 1 [((1, 0), "A", .Red)])
      .LIQUID (by decide) (by decide) (0, 0) (by decide),
    C3_every_position_exactly_once ops0 uninit0
      (make_buffer 2 1 [((0, 0), "A", .Red)]) (make_buffer 2 1 [((1, 0), "A", .Red)])
      .LIQUID (by decide) (by decide) (1, 0) (by decide)⟩

/-! ## C5 — threshold demotion -/

namespace solver

/-- Positions pairwise distinct (count ≤ 1) make list indices recoverable. -/
theorem pos_index_unique (sU : List (ℕ × ℕ × CellSnapshot))
    (hsnd : ∀ p, sU.countP (fun e => decide ((e.1, e.2.1) = p)) ≤ 1)
    {i1 i2 : ℕ} (h1 : i1 < sU.length) (h2 : i2 < sU.length)
    (heq : ((sU.getD i1 dfltSnap).1, (sU.getD i1 dfltSnap).2.1) =
      ((sU.getD i2 dfltSnap).1, (sU.getD i2 dfltSnap).2.1)) : i1 = i2 := by
  by_contra hne
  have h2le := two_le_countP_of_two_idx sU dfltSnap
    (fun e => decide ((e.1, e.2.1) = ((sU.getD i2 dfltSnap).1, (sU.getD i2 dfltSnap).2.1)))
    h1 h2 hne (decide_eq_true heq) (decide_eq_true rfl)
  have := hsnd ((sU.getD i2 dfltSnap).1, (sU.getD i2 dfltSnap).2.1)
  omega

theorem displacedList_count_one (A : List (Option ℕ)) (costf : ℕ → ℕ → ℚ) (thr : ℚ)
    (sU dU : List (ℕ × ℕ × CellSnapshot))
    (hsnd : ∀ p, sU.countP (fun e => decide ((e.1, e.2.1) = p)) ≤ 1)
    {i j : ℕ} (hin : i < sU.length) (hA : A.getD i none = some j) (hc : costf i j ≤ thr) :
    (displacedList A costf thr sU dU).countP
      (fun c => decide (c = displaced_of (sU.getD i dfltSnap) (dU.getD j dfltSnap))) = 1 := by
  unfold displacedList
  rw [countP_filterMap_general]
  refine countP_eq_one_of_unique _ _ i (List.nodup_range _) (List.mem_range.mpr hin) ?_ ?_
  · rw [hA]
    simp [hc]
  · intro i' hi'r hsat
    rcases hA' : A.getD i' none with _ | j'
    · rw [hA'] at hsat
      simp at hsat
    · rw [hA'] at hsat
      by_cases hc' : costf i' j' ≤ thr
      · simp only [hc', if_true, Option.map_some', Option.getD_some,
          decide_eq_true_eq] at hsat
        have hpos := congrArg (fun c : DisplacedCell => (c.src_x, c.src_y)) hsat
        simp only [displaced_of] at hpos
        exact pos_index_unique sU hsnd (List.mem_range.mp hi'r) hin hpos
      · simp [hc'] at hsat

theorem disappearingList_count_one (uninit : ColorPair) (A : List (Option ℕ))
    (costf : ℕ → ℕ → ℚ) (thr : ℚ) (sU : List (ℕ × ℕ × CellSnapshot))
    (hsnd : ∀ p, sU.countP (fun e => decide ((e.1, e.2.1) = p)) ≤ 1)
    {i : ℕ} (hin : i < sU.length)
    (hnod : ∀ j, A.getD i none = some j → ¬ costf i j ≤ thr) :
    (disappearingList uninit A costf thr sU).countP
      (fun c => decide (c = orphan_from uninit (sU.getD i dfltSnap).1
        (sU.getD i dfltSnap).2.1 (sU.getD i dfltSnap).2.2)) = 1 := by
  unfold disappearingList
  rw [countP_filterMap_general]
  refine countP_eq_one_of_unique _ _ i (List.nodup_range _) (List.mem_range.mpr hin) ?_ ?_
  · rcases hA : A.getD i none with _ | j
    · simp
    · simp [hnod j hA]
  · intro i' hi'r hsat
    have hposeq : ((sU.getD i' dfltSnap).1, (sU.getD i' dfltSnap).2.1) =
        ((sU.getD i dfltSnap).1, (sU.getD i dfltSnap).2.1) := by
      rcases hA' : A.getD i' none with _ | j'
      · rw [hA'] at hsat
        simp only [Option.map_some', Option.getD_some, decide_eq_true_eq] at hsat
        have := congrArg (fun c : OrphanCell => (c.x, c.y)) hsat
        simpa [orphan_from] using this
      · rw [hA'] at hsat
        by_cases hc' : costf i' j' ≤ thr
        · simp [hc'] at hsat
        · simp only [hc', if_false, Option.map_some', Option.getD_some,
            decide_eq_true_eq] at hsat
          have := congrArg (fun c : OrphanCell => (c.x, c.y)) hsat
          simpa [orphan_from] using this
    exact pos_index_unique sU hsnd (List.mem_range.mp hi'r) hin hposeq

theorem appearingList_count_one (uninit : ColorPair) (matched : ℕ → Bool)
    (dU : List (ℕ × ℕ × CellSnapshot))
    (hdnd : ∀ p, dU.countP (fun e => decide ((e.1, e.2.1) = p)) ≤ 1)
    {j : ℕ} (hjm : j < dU.length) (hnm : matched j = false) :
    (appearingList uninit matched dU).countP
      (fun c => decide (c = orphan_from uninit (dU.getD j dfltSnap).1
        (dU.getD j dfltSnap).2.1 (dU.getD j dfltSnap).2.2)) = 1 := by
  unfold appearingList
  rw [countP_filterMap_general]
  refine countP_eq_one_of_unique _ _ j (List.nodup_range _) (List.mem_range.mpr hjm) ?_ ?_
  · rw [hnm]
    simp
  · intro j' hj'r hsat
    by_cases hm' : matched j' = true
    · rw [if_pos hm'] at hsat
      simp at hsat
    · rw [if_neg hm'] at hsat
      simp only [Option.map_some', Option.getD_some, decide_eq_true_eq] at hsat
      have hpe := congrArg (fun c : OrphanCell => (c.x, c.y)) hsat
      simp only [orphan_from] at hpe
      exact pos_index_unique dU hdnd (List.mem_range.mp hj'r) hjm hpe

theorem solve_unmatched_of_ne_nil (ops : FloatOps) (uninit : ColorPair)
    (sU dU : List (ℕ × ℕ × CellSnapshot)) (w : MorphWeights)
    (hs : sU ≠ []) (hd : dU ≠ []) :
    solve_unmatched ops uninit sU dU w =
      (displacedList (hungarian (sU.map (fun s => dU.map (fun d =>
          cell_cost ops s.1 s.2.1 s.2.2 d.1 d.2.1 d.2.2 w))) sU.length dU.length)
        (costOf ops w sU dU) (threshold w) sU dU,
       appearingList uninit
        (dst_matchedB (hungarian (sU.map (fun s => dU.map (fun d =>
            cell_cost ops s.1 s.2.1 s.2.2 d.1 d.2.1 d.2.2 w))) sU.length dU.length)
          (costOf ops w sU dU) (threshold w) sU.length) dU,
       disappearingList uninit
        (hungarian (sU.map (fun s => dU.map (fun d =>
            cell_cost ops s.1 s.2.1 s.2.2 d.1 d.2.1 d.2.2 w))) sU.length dU.length)
        (costOf ops w sU dU) (threshold w) sU) := by
  have hs' : sU.isEmpty = false := by
    rw [List.isEmpty_eq_false_iff_exists_mem]
    rcases sU with _ | ⟨a, tl⟩
    · exact absurd rfl hs
    · exact ⟨a, List.mem_cons_self a tl⟩
  have hd' : dU.isEmpty = false := by
    rw [List.isEmpty_eq_false_iff_exists_mem]
    rcases dU with _ | ⟨a, tl⟩
    · exact absurd rfl hd
    · exact ⟨a, List.mem_cons_self a tl⟩
  unfold solve_unmatched
  rw [hs', hd']
  rfl

end solver

theorem countP_pair_le_one {α : Type} (a b : α) (q : α → Bool)
    (h : q a = true → q b = true → False) : [a, b].countP q ≤ 1 := by
  rcases ha : q a <;> rcases hb : q b
  · simp [List.countP_cons, ha, hb]
  · simp [List.countP_cons, ha, hb]
  · simp [List.countP_cons, ha, hb]
  · exact (h ha hb).elim

/-- **C5.**  After matching with `threshold = glyph_mismatch·glyph·2 +
spatial·100 + color·0.5`: a matched pair within threshold yields exactly one
Displaced entry joining `src[i]` and `dst[j]`; a matched pair above threshold
yields exactly one Disappearing orphan for `src[i]` and leaves `dst[j]`
unmatched, so it becomes exactly one Appearing orphan; an unmatched src cell
(assignment `None`, e.g. the rectangular case) becomes exactly one
Disappearing orphan; a dst cell matched by no row within threshold becomes
exactly one Appearing orphan.  (Position hypotheses hold for the lists `diff`
builds: each grid position is pushed at most once.) -/
theorem C5_threshold_demotion (ops : FloatOps) (uninit : ColorPair) (w : MorphWeights)
    (sU dU : List (ℕ × ℕ × solver.CellSnapshot)) (hs : sU ≠ []) (hd : dU ≠ [])
    (hsnd : ∀ p, sU.countP (fun e => decide ((e.1, e.2.1) = p)) ≤ 1)
    (hdnd : ∀ p, dU.countP (fun e => decide ((e.1, e.2.1) = p)) ≤ 1) :
    (∀ i j,
      (solver.hungarian (sU.map (fun s => dU.map (fun d =>
          solver.cell_cost ops s.1 s.2.1 s.2.2 d.1 d.2.1 d.2.2 w))) sU.length dU.length
        |>.getD i none) = some j →
      ((solver.costOf ops w sU dU i j ≤ solver.threshold w →
        (solver.solve_unmatched ops uninit sU dU w).1.countP
          (fun c => decide (c = solver.displaced_of (sU.getD i solver.dfltSnap)
            (dU.getD j solver.dfltSnap))) = 1) ∧
       (¬ solver.costOf ops w sU dU i j ≤ solver.threshold w →
        (solver.solve_unmatched ops uninit sU dU w).2.2.countP
          (fun c => decide (c = solver.orphan_from uninit (sU.getD i solver.dfltSnap).1
            (sU.getD i solver.dfltSnap).2.1 (sU.getD i solver.dfltSnap).2.2)) = 1 ∧
        (solver.solve_unmatched ops uninit sU dU w).2.1.countP
          (fun c => decide (c = solver.orphan_from uninit (dU.getD j solver.dfltSnap).1
            (dU.getD j solver.dfltSnap).2.1 (dU.getD j solver.dfltSnap).2.2)) = 1))) ∧
    (∀ i, i < sU.length →
      (solver.hungarian (sU.map (fun s => dU.map (fun d =>
          solver.cell_cost ops s.1 s.2.1 s.2.2 d.1 d.2.1 d.2.2 w))) sU.length dU.length
        |>.getD i none) = none →
      (solver.solve_unmatched ops uninit sU dU w).2.2.countP
        (fun c => decide (c = solver.orphan_from uninit (sU.getD i solver.dfltSnap).1
          (sU.getD i solver.dfltSnap).2.1 (sU.getD i solver.dfltSnap).2.2)) = 1) ∧
    (∀ j, j < dU.length →
      (∀ i, i < sU.length →
        (solver.hungarian (sU.map (fun s => dU.map (fun d =>
            solver.cell_cost ops s.1 s.2.1 s.2.2 d.1 d.2.1 d.2.2 w))) sU.length dU.length
          |>.getD i none) = some j →
        ¬ solver.costOf ops w sU dU i j ≤ solver.threshold w) →
      (solver.solve_unmatched ops uninit sU dU w).2.1.countP
        (fun c => decide (c = solver.orphan_from uninit (dU.getD j solver.dfltSnap).1
          (dU.getD j solver.dfltSnap).2.1 (dU.getD j solver.dfltSnap).2.2)) = 1) := by
  set cM := sU.map (fun s => dU.map (fun d =>
    solver.cell_cost ops s.1 s.2.1 s.2.2 d.1 d.2.1 d.2.2 w)) with hcM
  refine ⟨?_, ?_, ?_⟩
  · intro i j hA
    have hrange := solver.hungarian_range cM sU.length dU.length i j hA
    rw [solver.solve_unmatched_of_ne_nil ops uninit sU dU w hs hd]
    constructor
    · intro hc
      exact solver.displacedList_count_one _ _ _ sU dU hsnd hrange.2 hA hc
    · intro hc
      constructor
      · refine solver.disappearingList_count_one uninit _ _ _ sU hsnd hrange.2 ?_
        intro j' hA'
        rw [hA] at hA'
        rw [Option.some_inj] at hA'
        rw [← hA']
        exact hc
      · refine solver.appearingList_count_one uninit _ dU hdnd hrange.1 ?_
        rw [Bool.eq_false_iff]
        intro hm
        obtain ⟨i', hi'r, hi'⟩ := List.any_eq_true.mp hm
        rw [Bool.and_eq_true, beq_iff_eq, decide_eq_true_eq] at hi'
        have : i' = i := solver.hungarian_inj cM sU.length dU.length i' i j hi'.1 hA
        rw [this] at hi'
        exact hc hi'.2
  · intro i hi hA
    rw [solver.solve_unmatched_of_ne_nil ops uninit sU dU w hs hd]
    refine solver.disappearingList_count_one uninit _ _ _ sU hsnd hi ?_
    intro j' hA'
    rw [hA] at hA'
    exact Option.noConfusion hA'
  · intro j hj hno
    rw [solver.solve_unmatched_of_ne_nil ops uninit sU dU w hs hd]
    refine solver.appearingList_count_one uninit _ dU hdnd hj ?_
    rw [Bool.eq_false_iff]
    intro hm
    obtain ⟨i', hi'r, hi'⟩ := List.any_eq_true.mp hm
    rw [Bool.and_eq_true, beq_iff_eq, decide_eq_true_eq] at hi'
    exact hno i' (List.mem_range.mp hi'r) hi'.1 hi'.2

/-- **C5, witness**: on the rectangular 2-src/1-dst instance, the matched
pair within threshold yields exactly one Displaced entry and the row left
`None` by the padded assignment yields exactly one Disappearing orphan; on
the 1-src/2-dst instance the dst cell matched by no row yields exactly one
Appearing orphan. -/
theorem C5_threshold_demotion_witness :
    ((solver.solve_unmatched ops0 uninit0
      [(0, 0, solver.CellSnapshot.from_cell ops0 (cellOf "M" .Red)),
       (5, 0, solver.CellSnapshot.from_cell ops0 (cellOf "N" .Blue))]
      [(0, 1, solver.CellSnapshot.from_cell ops0 (cellOf "M" .Red))] .LIQUID).1.countP
      (fun c => decide (c = solver.displaced_of
        ([(0, 0, solver.CellSnapshot.from_cell ops0 (cellOf "M" .Red)),
          (5, 0, solver.CellSnapshot.from_cell ops0 (cellOf "N" .Blue))].getD 0 solver.dfltSnap)
        ([(0, 1, solver.CellSnapshot.from_cell ops0 (cellOf "M" .Red))].getD 0 solver.dfltSnap)))
        = 1) ∧
    ((solver.solve_unmatched ops0 uninit0
      [(0, 0, solver.CellSnapshot.from_cell ops0 (cellOf "M" .Red)),
       (5, 0, solver.CellSnapshot.from_cell ops0 (cellOf "N" .Blue))]
      [(0, 1, solver.CellSnapshot.from_cell ops0 (cellOf "M" .Red))] .LIQUID).2.2.countP
      (fun c => decide (c = solver.orphan_from uninit0
        (([(0, 0, solver.CellSnapshot.from_cell ops0 (cellOf "M" .Red)),
           (5, 0, solver.CellSnapshot.from_cell ops0 (cellOf "N" .Blue))].getD 1 solver.dfltSnap)).1
        (([(0, 0, solver.CellSnapshot.from_cell ops0 (cellOf "M" .Red)),
           (5, 0, solver.CellSnapshot.from_cell ops0 (cellOf "N" .Blue))].getD 1 solver.dfltSnap)).2.1
        (([(0, 0, solver.CellSnapshot.from_cell ops0 (cellOf "M" .Red)),
           (5, 0, solver.CellSnapshot.from_cell ops0 (cellOf "N" .Blue))].getD 1 solver.dfltSnap)).2.2))
        = 1) ∧
    ((solver.solve_unmatched ops0 uninit0
      [(0, 0, solver.CellSnapshot.from_cell ops0 (cellOf "M" .Red))]
      [(0, 1, solver.CellSnapshot.from_cell ops0 (cellOf "M" .Red)),
       (9, 9, solver.CellSnapshot.from_cell ops0 (cellOf "Z" .Green))] .LIQUID).2.1.countP
      (fun c => decide (c = solver.orphan_from uninit0
        (([(0, 1, solver.CellSnapshot.from_cell ops0 (cellOf "M" .Red)),
           (9, 9, solver.CellSnapshot.from_cell ops0 (cellOf "Z" .Green))].getD 1 solver.dfltSnap)).1
        (([(0, 1, solver.CellSnapshot.from_cell ops0 (cellOf "M" .Red)),
           (9, 9, solver.CellSnapshot.from_cell ops0 (cellOf "Z" .Green))].getD 1 solver.dfltSnap)).2.1
        (([(0, 1, solver.CellSnapshot.from_cell ops0 (cellOf "M" .Red)),
           (9, 9, solver.CellSnapshot.from_cell ops0 (cellOf "Z" .Green))].getD 1 solver.dfltSnap)).2.2))
        = 1) :=
  ⟨((C5_threshold_demotion ops0 uninit0 .LIQUID
      [(0, 0, solver.CellSnapshot.from_cell ops0 (cellOf "M" .Red)),
       (5, 0, solver.CellSnapshot.from_cell ops0 (cellOf "N" .Blue))]
      [(0, 1, solver.CellSnapshot.from_cell ops0 (cellOf "M" .Red))]
      (by decide) (by decide)
      (fun p => countP_pair_le_one _ _ _ (fun h1 h2 => by
        rw [decide_eq_true_eq] at h1 h2
        rw [← h1] at h2
        exact absurd h2 (by decide)))
      (fun p => le_trans (List.countP_le_length _) (by decide))).1
      0 0 (by decide)).1 (by decide),
   (C5_threshold_demotion ops0 uninit0 .LIQUID
      [(0, 0, solver.CellSnapshot.from_cell ops0 (cellOf "M" .Red)),
       (5, 0, solver.CellSnapshot.from_cell ops0 (cellOf "N" .Blue))]
      [(0, 1, solver.CellSnapshot.from_cell ops0 (cellOf "M" .Red))]
      (by decide) (by decide)
      (fun p => countP_pair_le_one _ _ _ (fun h1 h2 => by
        rw [decide_eq_true_eq] at h1 h2
        rw [← h1] at h2
        exact absurd h2 (by decide)))
      (fun p => le_trans (List.countP_le_length _) (by decide))).2.1
      1 (by decide) (by decide),
   (C5_threshold_demotion ops0 uninit0 .LIQUID
      [(0, 0, solver.CellSnapshot.from_cell ops0 (cellOf "M" .Red))]
      [(0, 1, solver.CellSnapshot.from_cell ops0 (cellOf "M" .Red)),
       (9, 9, solver.CellSnapshot.from_cell ops0 (cellOf "Z" .Green))]
      (by decide) (by decide)
      (fun p => le_trans (List.countP_le_length _) (by decide))
      (fun p => countP_pair_le_one _ _ _ (fun h1 h2 => by
        rw [decide_eq_true_eq] at h1 h2
        rw [← h1] at h2
        exact absurd h2 (by decide)))).2.2
      1 (by decide) (by decide)⟩


/-! ## Render fold lemmas -/

/-- A fold of per-entry writes leaves an untouched position unchanged. -/
theorem foldl_get_untouched {α : Type} (P : Buffer → Prop) (step : Buffer → α → Buffer)
    (l : List α) (b : Buffer) (x y : ℕ)
    (hP0 : P b) (hPstep : ∀ buf a, a ∈ l → P buf → P (step buf a))
    (h : ∀ buf a, a ∈ l → P buf → (step buf a).get x y = buf.get x y) :
    (l.foldl step b).get x y = b.get x y := by
  induction l generalizing b with
  | nil => rfl
  | cons hd tl ih =>
    rw [List.foldl_cons]
    rw [ih (step b hd) (hPstep b hd (.head _) hP0)
      (fun buf a ha hP => hPstep buf a (.tail _ ha) hP)
      (fun buf a ha hP => h buf a (.tail _ ha) hP)]
    exact h b hd (.head _) hP0

/-- A fold of per-entry writes where exactly one entry writes position
`(x, y)`, and that write installs a fixed cell value. -/
theorem foldl_get_single_writer {α : Type} (P : Buffer → Prop) (step : Buffer → α → Buffer)
    (l : List α) (b : Buffer) (x y : ℕ) (a0 : α) (v : Cell)
    (hP0 : P b) (hPstep : ∀ buf a, a ∈ l → P buf → P (step buf a))
    (hmem : a0 ∈ l)
    (hwrite : ∀ buf, P buf → (step buf a0).get x y = v)
    (hothers : ∀ buf a, a ∈ l → a ≠ a0 → P buf → (step buf a).get x y = buf.get x y) :
    (l.foldl step b).get x y = v := by
  induction l generalizing b with
  | nil => simp at hmem
  | cons hd tl ih =>
    rw [List.foldl_cons]
    by_cases hmem' : a0 ∈ tl
    · exact ih (step b hd) (hPstep b hd (.head _) hP0)
        (fun buf a ha hP => hPstep buf a (.tail _ ha) hP) hmem'
        (fun buf a ha hne hP => hothers buf a (.tail _ ha) hne hP)
    · have hhd : hd = a0 := by
        rcases List.mem_cons.mp hmem with h' | h'
        · exact h'.symm
        · exact absurd h' hmem'
      subst hhd
      rw [foldl_get_untouched P step tl (step b hd) x y
        (hPstep b hd (.head _) hP0)
        (fun buf a ha hP => hPstep buf a (.tail _ ha) hP)
        (fun buf a ha hP => hothers buf a (.tail _ ha)
          (fun he => hmem' (he ▸ ha)) hP)]
      exact hwrite b hP0

/-- The dimension/well-formedness invariant threaded through render folds. -/
def dimsWf (W H : ℕ) (b : Buffer) : Prop :=
  b.width = W ∧ b.height = H ∧ b.wf

theorem dimsWf_set (W H : ℕ) (b : Buffer) (x y : ℕ) (c : Cell) (h : dimsWf W H b) :
    dimsWf W H (b.set x y c) :=
  ⟨h.1, h.2.1, Buffer.wf_set b x y c h.2.2⟩

theorem dimsWf_empty (W H : ℕ) : dimsWf W H (Buffer.empty W H) :=
  ⟨rfl, rfl, Buffer.wf_empty W H⟩

namespace interpolate

theorem render_stable_dimsWf {W H : ℕ} (plan : InterpolationPlan) (buf : Buffer)
    (h : dimsWf W H buf) : dimsWf W H (render_stable plan buf) :=
  foldl_invariant (dimsWf W H) render_stable_step plan.stable buf h
    (fun b a _ hb => dimsWf_set W H b a.x a.y _ hb)

theorem render_mutating_dimsWf {W H : ℕ} (ops : FloatOps) (plan : InterpolationPlan)
    (t : ℚ) (buf : Buffer) (h : dimsWf W H buf) :
    dimsWf W H (render_mutating ops plan t buf) :=
  foldl_invariant (dimsWf W H) (render_mutating_step ops t) plan.mutating buf h
    (fun b a _ hb => dimsWf_set W H b a.x a.y _ hb)

theorem render_displaced_dimsWf {W H : ℕ} (ops : FloatOps) (plan : InterpolationPlan)
    (t : ℚ) (buf : Buffer) (h : dimsWf W H buf) :
    dimsWf W H (render_displaced ops plan t buf) := by
  refine foldl_invariant (dimsWf W H) (render_displaced_step ops plan.width plan.height t)
    plan.displaced buf h (fun b a _ hb => ?_)
  unfold render_displaced_step
  dsimp only
  split
  · exact hb
  · exact dimsWf_set W H b _ _ _ hb

theorem render_appearing_dimsWf {W H : ℕ} (ops : FloatOps) (plan : InterpolationPlan)
    (t : ℚ) (buf : Buffer) (h : dimsWf W H buf) :
    dimsWf W H (render_appearing ops plan t buf) := by
  refine foldl_invariant (dimsWf W H) (render_appearing_step ops t)
    plan.appearing buf h (fun b a _ hb => ?_)
  unfold render_appearing_step
  dsimp only
  split
  · exact dimsWf_set W H b _ _ _ hb
  · exact dimsWf_set W H b _ _ _ hb

theorem render_disappearing_dimsWf {W H : ℕ} (ops : FloatOps) (plan : InterpolationPlan)
    (t : ℚ) (buf : Buffer) (h : dimsWf W H buf) :
    dimsWf W H (render_disappearing ops plan t buf) := by
  refine foldl_invariant (dimsWf W H) (render_disappearing_step ops t)
    plan.disappearing buf h (fun b a _ hb => ?_)
  unfold render_disappearing_step
  dsimp only
  split
  · exact dimsWf_set W H b _ _ _ hb
  · exact dimsWf_set W H b _ _ _ hb

theorem render_dimsWf (ops : FloatOps) (plan : InterpolationPlan) (t : ℚ) :
    dimsWf plan.width plan.height (render ops plan t) := by
  unfold render
  exact render_disappearing_dimsWf ops plan t _
    (render_appearing_dimsWf ops plan t _
      (render_displaced_dimsWf ops plan t _
        (render_mutating_dimsWf ops plan t _
          (render_stable_dimsWf plan _ (dimsWf_empty plan.width plan.height)))))

end interpolate

/-! ## C6 — identical buffers -/

namespace solver

theorem classify_self (ops : FloatOps) (x y : ℕ) (c : Cell) :
    classify ops x y c c = .stable ⟨x, y, c.symbol, c.fg, c.bg, c.modifier⟩ := by
  unfold classify
  dsimp only
  rw [if_pos (by simp)]

end solver

theorem Buffer.eq_of_fields {b1 b2 : Buffer} (h1 : b1.width = b2.width)
    (h2 : b1.height = b2.height) (h3 : b1.cells = b2.cells) : b1 = b2 := by
  cases b1
  cases b2
  simp only at h1 h2 h3
  rw [h1, h2, h3]

theorem Buffer.getElem_cells (b : Buffer) (i : ℕ) (hi : i < b.cells.length)
    (hW : 0 < b.width) : b.cells[i] = b.get (i % b.width) (i / b.width) := by
  unfold Buffer.get
  have hidx : i / b.width * b.width + i % b.width = i := by
    rw [Nat.mul_comm]
    exact Nat.div_add_mod i b.width
  rw [hidx, getD_eq_getElem _ _ hi]

set_option maxHeartbeats 1600000 in
/-- **C6.**  Identical buffers produce exactly `width·height` Stable entries
and nothing else, and rendering the resulting plan at any `t ∈ [0,1]` is
bit-identical to the source buffer. -/
theorem C6_identical_buffers (ops : FloatOps) (uninit : ColorPair) (w : MorphWeights)
    (src : Buffer) (hwf : src.wf) (t : ℚ) (ht : 0 ≤ t ∧ t ≤ 1) :
    (solver.diff ops uninit src src w).stable.length = src.width * src.height ∧
    (solver.diff ops uninit src src w).mutating = [] ∧
    (solver.diff ops uninit src src w).displaced = [] ∧
    (solver.diff ops uninit src src w).appearing = [] ∧
    (solver.diff ops uninit src src w).disappearing = [] ∧
    interpolate.render ops (solver.diff ops uninit src src w) t = src := by
  classical
  set W := src.width with hWdef
  set H := src.height with hHdef
  have hcls : ∀ p : ℕ × ℕ,
      solver.classify ops p.1 p.2 (src.get p.1 p.2) (src.get p.1 p.2) =
        .stable ⟨p.1, p.2, (src.get p.1 p.2).symbol, (src.get p.1 p.2).fg,
          (src.get p.1 p.2).bg, (src.get p.1 p.2).modifier⟩ :=
    fun p => solver.classify_self ops p.1 p.2 (src.get p.1 p.2)
  have hstable : (solver.diff ops uninit src src w).stable =
      (solver.positions W H).map (fun p =>
        (⟨p.1, p.2, (src.get p.1 p.2).symbol, (src.get p.1 p.2).fg,
          (src.get p.1 p.2).bg, (src.get p.1 p.2).modifier⟩ : StableCell)) := by
    rw [solver.diff_stable_eq]
    rw [List.filterMap_congr (g := fun p => some
      (⟨p.1, p.2, (src.get p.1 p.2).symbol, (src.get p.1 p.2).fg,
        (src.get p.1 p.2).bg, (src.get p.1 p.2).modifier⟩ : StableCell))
      (fun p _ => by rw [hcls p]; rfl)]
    exact List.filterMap_eq_map _ ▸ rfl
  have hmut : (solver.diff ops uninit src src w).mutating = [] := by
    rw [solver.diff_mutating_eq]
    refine List.filterMap_eq_nil_iff.mpr (fun p _ => ?_)
    rw [hcls p]
    rfl
  have hsU : (solver.positions W H).filterMap (fun q =>
      solver.classSrcUn (solver.classify ops q.1 q.2 (src.get q.1 q.2) (src.get q.1 q.2)))
      = [] := by
    refine List.filterMap_eq_nil_iff.mpr (fun p _ => ?_)
    rw [hcls p]
    rfl
  have hdU : (solver.positions W H).filterMap (fun q =>
      solver.classDstUn (solver.classify ops q.1 q.2 (src.get q.1 q.2) (src.get q.1 q.2)))
      = [] := by
    refine List.filterMap_eq_nil_iff.mpr (fun p _ => ?_)
    rw [hcls p]
    rfl
  have hsol := solver.diff_sol_eq ops uninit src src w
  rw [hsU, hdU] at hsol
  have hdisp : (solver.diff ops uninit src src w).displaced = [] :=
    congrArg (fun tr => tr.1) hsol
  have happ : (solver.diff ops uninit src src w).appearing = [] := by
    have := congrArg (fun tr => tr.2.1) hsol
    simpa using this
  have hdisap : (solver.diff ops uninit src src w).disappearing = [] := by
    have := congrArg (fun tr => tr.2.2) hsol
    simpa using this
  have hlen : (solver.diff ops uninit src src w).stable.length = W * H := by
    rw [hstable, List.length_map, solver.positions_length]
  have hplanW : (solver.diff ops uninit src src w).width = W := rfl
  have hplanH : (solver.diff ops uninit src src w).height = H := rfl
  have hrender : interpolate.render ops (solver.diff ops uninit src src w) t =
      interpolate.render_stable (solver.diff ops uninit src src w)
        (Buffer.empty W H) := by
    unfold interpolate.render
    unfold interpolate.render_mutating interpolate.render_displaced
      interpolate.render_appearing interpolate.render_disappearing
    rw [hmut, hdisp, happ, hdisap]
    rfl
  have hget : ∀ x y, x < W → y < H →
      (interpolate.render_stable (solver.diff ops uninit src src w)
        (Buffer.empty W H)).get x y = src.get x y := by
    intro x y hx hy
    unfold interpolate.render_stable
    rw [hstable, List.foldl_map]
    refine foldl_get_single_writer (dimsWf W H) _ (solver.positions W H)
      (Buffer.empty W H) x y (x, y) (src.get x y) (dimsWf_empty W H)
      (fun buf a _ hb => dimsWf_set W H buf a.1 a.2 _ hb)
      (solver.mem_positions.mpr ⟨hx, hy⟩) ?_ ?_
    · intro buf hP
      show (buf.set x y _).get x y = src.get x y
      rw [Buffer.get_set_self buf x y _ hP.2.2 (hP.1 ▸ hx) (hP.2.1 ▸ hy)]
    · intro buf a ha hne hP
      show (buf.set a.1 a.2 _).get x y = buf.get x y
      refine Buffer.get_set_ne buf a.1 a.2 x y _ (hP.1 ▸ hx)
        (hP.1 ▸ (solver.mem_positions.mp ha).1) ?_
      intro hcon
      exact hne hcon.symm
  have hdims := interpolate.render_dimsWf ops (solver.diff ops uninit src src w) t
  rw [hplanW, hplanH] at hdims
  refine ⟨hlen, hmut, hdisp, happ, hdisap, ?_⟩
  refine Buffer.eq_of_fields (hdims.1.trans hWdef.symm ▸ rfl) ?_ ?_
  · rw [hdims.2.1]
  · have hrl : (interpolate.render ops (solver.diff ops uninit src src w) t).cells.length
        = W * H := by
      have := hdims.2.2
      unfold Buffer.wf at this
      rw [this, hdims.1, hdims.2.1]
    refine List.ext_getElem (by rw [hrl, hwf]) ?_
    intro i h1 h2
    have hiWH : i < W * H := by rw [← hrl]; exact h1
    have hW0 : 0 < W := by
      rcases Nat.eq_zero_or_pos W with h | h
      · rw [h] at hiWH; simp at hiWH
      · exact h
    have hxw : i % W < W := Nat.mod_lt i hW0
    have hyh : i / W < H := Nat.div_lt_of_lt_mul hiWH
    rw [Buffer.getElem_cells _ i h1 (by rw [hdims.1]; exact hW0)]
    rw [Buffer.getElem_cells src i h2 hW0]
    rw [hdims.1]
    rw [hrender]
    exact hget (i % W) (i / W) hxw hyh

/-- **C6, witness**: a concrete 2×2 buffer diffed against itself at `t = 3/10`. -/
theorem C6_identical_buffers_witness :
    (make_buffer 2 2 [((0, 0), "A", .Red), ((1, 1), "B", .Blue)]).wf ∧
    ((0 : ℚ) ≤ 3 / 10 ∧ (3 : ℚ) / 10 ≤ 1) ∧
    ((solver.diff ops0 uninit0 (make_buffer 2 2 [((0, 0), "A", .Red), ((1, 1), "B", .Blue)])
        (make_buffer 2 2 [((0, 0), "A", .Red), ((1, 1), "B", .Blue)]) .LIQUID).stable.length =
      (make_buffer 2 2 [((0, 0), "A", .Red), ((1, 1), "B", .Blue)]).width *
      (make_buffer 2 2 [((0, 0), "A", .Red), ((1, 1), "B", .Blue)]).height ∧
    (solver.diff ops0 uninit0 (make_buffer 2 2 [((0, 0), "A", .Red), ((1, 1), "B", .Blue)])
        (make_buffer 2 2 [((0, 0), "A", .Red), ((1, 1), "B", .Blue)]) .LIQUID).mutating = [] ∧
    (solver.diff ops0 uninit0 (make_buffer 2 2 [((0, 0), "A", .Red), ((1, 1), "B", .Blue)])
        (make_buffer 2 2 [((0, 0), "A", .Red), ((1, 1), "B", .Blue)]) .LIQUID).displaced = [] ∧
    (solver.diff ops0 uninit0 (make_buffer 2 2 [((0, 0), "A", .Red), ((1, 1), "B", .Blue)])
        (make_buffer 2 2 [((0, 0), "A", .Red), ((1, 1), "B", .Blue)]) .LIQUID).appearing = [] ∧
    (solver.diff ops0 uninit0 (make_buffer 2 2 [((0, 0), "A", .Red), ((1, 1), "B", .Blue)])
        (make_buffer 2 2 [((0, 0), "A", .Red), ((1, 1), "B", .Blue)]) .LIQUID).disappearing = [] ∧
    interpolate.render ops0
      (solver.diff ops0 uninit0 (make_buffer 2 2 [((0, 0), "A", .Red), ((1, 1), "B", .Blue)])
        (make_buffer 2 2 [((0, 0), "A", .Red), ((1, 1), "B", .Blue)]) .LIQUID) (3 / 10) =
      make_buffer 2 2 [((0, 0), "A", .Red), ((1, 1), "B", .Blue)]) :=
  ⟨rfl, ⟨by norm_num, by norm_num⟩,
    C6_identical_buffers ops0 uninit0 .LIQUID
      (make_buffer 2 2 [((0, 0), "A", .Red), ((1, 1), "B", .Blue)]) rfl
      (3 / 10) ⟨by norm_num, by norm_num⟩⟩

/-! ## C2 — render at t = 1 -/

namespace interpolate

theorem pick_symbol_one (s d : String) (fg : ColorPair) : pick_symbol s d fg 1 = d := by
  unfold pick_symbol
  dsimp only
  by_cases h1 : s = d
  · rw [if_pos h1, h1]
  · rw [if_neg h1]
    have hthr : (match fg.oklch with
        | some lch =>
          if lch.l < 0.01 then 0.5 else max 0 (min 1 (LEGIBILITY_THRESHOLD / lch.l))
        | none => (0.5 : ℚ)) ≤ (1 : ℚ) := by
      cases fg.oklch with
      | none => norm_num
      | some lch =>
        dsimp only
        split_ifs
        · norm_num
        · exact max_le (by norm_num) (min_le_left _ _)
    rw [if_neg (not_lt.mpr hthr)]

theorem lerp_color_one_raw (ops : FloatOps) (src dst : ColorPair)
    (h : src.oklch = none ∨ dst.oklch = none) : lerp_color ops src dst 1 = dst.raw := by
  unfold lerp_color
  rcases hs : src.oklch with _ | a <;> rcases hd : dst.oklch with _ | b
  · rw [if_neg (by norm_num)]
  · rw [if_neg (by norm_num)]
  · rw [if_neg (by norm_num)]
  · rcases h with h | h
    · rw [hs] at h
      exact Option.noConfusion h
    · rw [hd] at h
      exact Option.noConfusion h

theorem lerp_pos_one (s d : ℕ) (hd : d ≤ 65535) : lerp_pos s d 1 = d := by
  unfold lerp_pos roundQ
  have he : (s : ℚ) + ((d : ℚ) - (s : ℚ)) * 1 = (d : ℚ) := by ring
  rw [he, if_pos (by positivity)]
  have hf : ⌊(d : ℚ) + 1 / 2⌋ = (d : ℤ) := by
    rw [Int.floor_eq_iff]
    constructor
    · push_cast
      linarith
    · push_cast
      linarith
  rw [hf]
  unfold as_u16
  rw [max_eq_right (by positivity), min_eq_right (by exact_mod_cast hd)]
  exact Int.toNat_natCast d

end interpolate

namespace solver

theorem classStable_dst {ops : FloatOps} {x y : ℕ} {sc dc : Cell} {st : StableCell}
    (h : classStable (classify ops x y sc dc) = some st) :
    st.symbol = dc.symbol ∧ st.fg = dc.fg ∧ st.bg = dc.bg ∧ st.modifier = dc.modifier := by
  unfold classify at h
  dsimp only at h
  split_ifs at h with h1 h2 h3 h4
  · simp only [classStable, Option.some_inj] at h
    subst h
    simp only [Bool.and_eq_true] at h1
    obtain ⟨⟨⟨hs, hf⟩, hb⟩, hm⟩ := h1
    exact ⟨eq_of_beq hs, eq_of_beq hf, eq_of_beq hb, eq_of_beq hm⟩
  · exact Option.noConfusion h
  · exact Option.noConfusion h
  · exact Option.noConfusion h
  · simp only [classStable, Option.some_inj] at h
    subst h
    exact ⟨rfl, rfl, rfl, rfl⟩

theorem classMutating_fields {ops : FloatOps} {x y : ℕ} {sc dc : Cell} {mc : MutatingCell}
    (h : classMutating (classify ops x y sc dc) = some mc) :
    mc.dst_symbol = dc.symbol ∧ mc.dst_modifier = dc.modifier ∧
    mc.src_fg = ColorPair.from_color ops sc.fg ∧ mc.dst_fg = ColorPair.from_color ops dc.fg ∧
    mc.src_bg = ColorPair.from_color ops sc.bg ∧ mc.dst_bg = ColorPair.from_color ops dc.bg := by
  rcases classify_eq ops x y sc dc with hc | hc | hc | hc | hc <;> rw [hc] at h <;>
    simp only [classMutating, Option.some_inj] at h
  · exact Option.noConfusion h
  · exact Option.noConfusion h
  · exact Option.noConfusion h
  · subst h
    exact ⟨rfl, rfl, rfl, rfl, rfl, rfl⟩
  · exact Option.noConfusion h

theorem stable_excl {c : CellClass} (h : (classStable c).isSome) :
    classMutating c = none ∧ classSrcUn c = none ∧ classDstUn c = none := by
  cases c <;> simp [classStable, classMutating, classSrcUn, classDstUn] at h ⊢

theorem mutating_excl {c : CellClass} (h : (classMutating c).isSome) :
    classStable c = none ∧ classSrcUn c = none ∧ classDstUn c = none := by
  cases c <;> simp [classStable, classMutating, classSrcUn, classDstUn] at h ⊢

end solver

namespace solver

theorem mem_solve_displaced {ops : FloatOps} {uninit : ColorPair} {w : MorphWeights}
    {sU dU : List (ℕ × ℕ × CellSnapshot)} {d : DisplacedCell}
    (h : d ∈ (solve_unmatched ops uninit sU dU w).1) :
    ∃ e ∈ dU, d.dst_x = e.1 ∧ d.dst_y = e.2.1 := by
  unfold solve_unmatched at h
  split_ifs at h with h1 h2 h3
  · simp at h
  · simp at h
  · simp at h
  · dsimp only at h
    unfold displacedList at h
    rcases List.mem_filterMap.mp h with ⟨i, _, hmatch⟩
    rcases hA : (hungarian (sU.map (fun s =>
        dU.map (fun e => cell_cost ops s.1 s.2.1 s.2.2 e.1 e.2.1 e.2.2 w)))
        sU.length dU.length).getD i none with _ | j
    · rw [hA] at hmatch
      exact Option.noConfusion hmatch
    · rw [hA] at hmatch
      dsimp only at hmatch
      split_ifs at hmatch with hcost
      have hj := (hungarian_range _ _ _ i j hA).1
      have hval : d = displaced_of (sU.getD i dfltSnap) (dU.getD j dfltSnap) :=
        (Option.some_inj.mp hmatch).symm
      subst hval
      exact ⟨dU.getD j dfltSnap, getD_mem dU dfltSnap hj, rfl, rfl⟩

theorem mem_solve_appearing {ops : FloatOps} {uninit : ColorPair} {w : MorphWeights}
    {sU dU : List (ℕ × ℕ × CellSnapshot)} {o : OrphanCell}
    (h : o ∈ (solve_unmatched ops uninit sU dU w).2.1) :
    ∃ e ∈ dU, o.x = e.1 ∧ o.y = e.2.1 := by
  unfold solve_unmatched at h
  split_ifs at h with h1 h2 h3
  · simp at h
  · dsimp only at h
    rcases List.mem_map.mp h with ⟨e, he, heq⟩
    subst heq
    exact ⟨e, he, rfl, rfl⟩
  · simp at h
  · dsimp only at h
    unfold appearingList at h
    rcases List.mem_filterMap.mp h with ⟨j, hj, hmatch⟩
    have hjlen : j < dU.length := List.mem_range.mp hj
    have hval : o = orphan_from uninit (dU.getD j dfltSnap).1 (dU.getD j dfltSnap).2.1
        (dU.getD j dfltSnap).2.2 := by
      split_ifs at hmatch <;>
        first
          | exact Option.noConfusion hmatch
          | (try dsimp only at hmatch
             exact (Option.some_inj.mp hmatch).symm)
    subst hval
    exact ⟨dU.getD j dfltSnap, getD_mem dU dfltSnap hjlen, rfl, rfl⟩

theorem mem_solve_disappearing {ops : FloatOps} {uninit : ColorPair} {w : MorphWeights}
    {sU dU : List (ℕ × ℕ × CellSnapshot)} {o : OrphanCell}
    (h : o ∈ (solve_unmatched ops uninit sU dU w).2.2) :
    ∃ e ∈ sU, o.x = e.1 ∧ o.y = e.2.1 := by
  unfold solve_unmatched at h
  split_ifs at h with h1 h2 h3
  · simp at h
  · simp at h
  · dsimp only at h
    rcases List.mem_map.mp h with ⟨e, he, heq⟩
    subst heq
    exact ⟨e, he, rfl, rfl⟩
  · dsimp only at h
    unfold disappearingList at h
    rcases List.mem_filterMap.mp h with ⟨i, hi, hmatch⟩
    have hilen : i < sU.length := List.mem_range.mp hi
    have hval : o = orphan_from uninit (sU.getD i dfltSnap).1 (sU.getD i dfltSnap).2.1
        (sU.getD i dfltSnap).2.2 := by
      rcases hA : (hungarian (sU.map (fun s =>
          dU.map (fun e => cell_cost ops s.1 s.2.1 s.2.2 e.1 e.2.1 e.2.2 w)))
          sU.length dU.length).getD i none with _ | j
      · rw [hA] at hmatch
        dsimp only at hmatch
        exact (Option.some_inj.mp hmatch).symm
      · rw [hA] at hmatch
        dsimp only at hmatch
        split_ifs at hmatch <;>
          first
            | exact Option.noConfusion hmatch
            | (try dsimp only at hmatch
               exact (Option.some_inj.mp hmatch).symm)
    subst hval
    exact ⟨sU.getD i dfltSnap, getD_mem sU dfltSnap hilen, rfl, rfl⟩

end solver

namespace interpolate

theorem render_mutating_untouched (ops : FloatOps) (W H : ℕ) (plan : InterpolationPlan)
    (t : ℚ) (x y : ℕ) (hx : x < W)
    (hco : ∀ mc ∈ plan.mutating, mc.x < W ∧ (x, y) ≠ (mc.x, mc.y))
    (buf : Buffer) (hb : dimsWf W H buf) :
    (render_mutating ops plan t buf).get x y = buf.get x y := by
  refine foldl_get_untouched (dimsWf W H) (render_mutating_step ops t) plan.mutating buf x y hb
    (fun b a _ hbb => dimsWf_set W H b a.x a.y _ hbb) (fun b a ha hbb => ?_)
  show (render_mutating_step ops t b a).get x y = b.get x y
  unfold render_mutating_step
  dsimp only
  exact Buffer.get_set_ne b a.x a.y x y _ (hbb.1 ▸ hx) (hbb.1 ▸ (hco a ha).1) (hco a ha).2

theorem render_displaced_untouched (ops : FloatOps) (W H : ℕ) (plan : InterpolationPlan)
    (t : ℚ) (x y : ℕ) (hx : x < W) (hWp : plan.width = W)
    (hco : ∀ d ∈ plan.displaced,
      (x, y) ≠ (lerp_pos d.src_x d.dst_x t, lerp_pos d.src_y d.dst_y t))
    (buf : Buffer) (hb : dimsWf W H buf) :
    (render_displaced ops plan t buf).get x y = buf.get x y := by
  refine foldl_get_untouched (dimsWf W H) (render_displaced_step ops plan.width plan.height t)
    plan.displaced buf x y hb
    (fun b a _ hbb => by
      unfold render_displaced_step
      dsimp only
      split
      · exact hbb
      · exact dimsWf_set W H b _ _ _ hbb)
    (fun b a ha hbb => ?_)
  show (render_displaced_step ops plan.width plan.height t b a).get x y = b.get x y
  unfold render_displaced_step
  dsimp only
  split
  · rfl
  · rename_i hout
    push_neg at hout
    refine Buffer.get_set_ne b _ _ x y _ (hbb.1 ▸ hx) ?_ (hco a ha)
    rw [hbb.1, ← hWp]
    exact hout.1

theorem render_appearing_untouched (ops : FloatOps) (W H : ℕ) (plan : InterpolationPlan)
    (t : ℚ) (x y : ℕ) (hx : x < W)
    (hco : ∀ o ∈ plan.appearing, o.x < W ∧ (x, y) ≠ (o.x, o.y))
    (buf : Buffer) (hb : dimsWf W H buf) :
    (render_appearing ops plan t buf).get x y = buf.get x y := by
  refine foldl_get_untouched (dimsWf W H) (render_appearing_step ops t) plan.appearing buf x y hb
    (fun b a _ hbb => by
      unfold render_appearing_step
      dsimp only
      split
      · exact dimsWf_set W H b _ _ _ hbb
      · exact dimsWf_set W H b _ _ _ hbb)
    (fun b a ha hbb => ?_)
  have hgoal : ∀ c : Cell, (b.set a.x a.y c).get x y = b.get x y := fun c =>
    Buffer.get_set_ne b a.x a.y x y c (hbb.1 ▸ hx) (hbb.1 ▸ (hco a ha).1) (hco a ha).2
  show (render_appearing_step ops t b a).get x y = b.get x y
  unfold render_appearing_step
  dsimp only
  split
  · exact hgoal _
  · exact hgoal _

theorem render_disappearing_untouched (ops : FloatOps) (W H : ℕ) (plan : InterpolationPlan)
    (t : ℚ) (x y : ℕ) (hx : x < W)
    (hco : ∀ o ∈ plan.disappearing, o.x < W ∧ (x, y) ≠ (o.x, o.y))
    (buf : Buffer) (hb : dimsWf W H buf) :
    (render_disappearing ops plan t buf).get x y = buf.get x y := by
  refine foldl_get_untouched (dimsWf W H) (render_disappearing_step ops t) plan.disappearing
    buf x y hb
    (fun b a _ hbb => by
      unfold render_disappearing_step
      dsimp only
      split
      · exact dimsWf_set W H b _ _ _ hbb
      · exact dimsWf_set W H b _ _ _ hbb)
    (fun b a ha hbb => ?_)
  have hgoal : ∀ c : Cell, (b.set a.x a.y c).get x y = b.get x y := fun c =>
    Buffer.get_set_ne b a.x a.y x y c (hbb.1 ▸ hx) (hbb.1 ▸ (hco a ha).1) (hco a ha).2
  show (render_disappearing_step ops t b a).get x y = b.get x y
  unfold render_disappearing_step
  dsimp only
  split
  · exact hgoal _
  · exact hgoal _

end interpolate

set_option maxHeartbeats 1600000 in
/-- **C2 (amended).**  At `t = 1` the rendered buffer agrees with `dst` at
every Stable-classified position exactly (all four cell fields), and at every
Mutating-classified position on symbol and modifier; the foreground and
background also agree there whenever the corresponding colour pair is not
interpolated in Oklch (at least one endpoint has no Oklch form).  The original
claim of cell-for-cell equality with `dst` fails at Mutating positions with
two Oklch-interpolable colours (the colour is an Rgb round-trip) and at
Appearing/Disappearing positions. -/
theorem C2_render_at_one_amended (ops : FloatOps) (uninit : ColorPair) (w : MorphWeights)
    (src dst : Buffer) (hdw : dst.width = src.width) (hdh : dst.height = src.height)
    (hW16 : src.width ≤ 65536) (hH16 : src.height ≤ 65536)
    (x y : ℕ) (hx : x < src.width) (hy : y < src.height) :
    (∀ st, solver.classStable (solver.classify ops x y (src.get x y) (dst.get x y)) = some st →
      (interpolate.render ops (solver.diff ops uninit src dst w) 1).get x y = dst.get x y) ∧
    (∀ mc, solver.classMutating (solver.classify ops x y (src.get x y) (dst.get x y)) = some mc →
      ((interpolate.render ops (solver.diff ops uninit src dst w) 1).get x y).symbol
          = (dst.get x y).symbol ∧
      ((interpolate.render ops (solver.diff ops uninit src dst w) 1).get x y).modifier
          = (dst.get x y).modifier ∧
      (oklch.from_color ops (src.get x y).fg = none ∨
          oklch.from_color ops (dst.get x y).fg = none →
        ((interpolate.render ops (solver.diff ops uninit src dst w) 1).get x y).fg
          = (dst.get x y).fg) ∧
      (oklch.from_color ops (src.get x y).bg = none ∨
          oklch.from_color ops (dst.get x y).bg = none →
        ((interpolate.render ops (solver.diff ops uninit src dst w) 1).get x y).bg
          = (dst.get x y).bg)) := by
  classical
  set W := src.width with hWdef
  set H := src.height with hHdef
  set plan := solver.diff ops uninit src dst w with hplan
  have hstc : ∀ a ∈ plan.stable, ∃ q ∈ solver.positions W H,
      solver.classStable (solver.classify ops q.1 q.2 (src.get q.1 q.2) (dst.get q.1 q.2))
        = some a ∧ a.x = q.1 ∧ a.y = q.2 := by
    intro a ha
    rw [hplan, solver.diff_stable_eq] at ha
    rcases List.mem_filterMap.mp ha with ⟨q, hq, hclsq⟩
    exact ⟨q, hq, hclsq, (solver.classStable_pos hclsq).1, (solver.classStable_pos hclsq).2⟩
  have hmutc : ∀ a ∈ plan.mutating, ∃ q ∈ solver.positions W H,
      solver.classMutating (solver.classify ops q.1 q.2 (src.get q.1 q.2) (dst.get q.1 q.2))
        = some a ∧ a.x = q.1 ∧ a.y = q.2 := by
    intro a ha
    rw [hplan, solver.diff_mutating_eq] at ha
    rcases List.mem_filterMap.mp ha with ⟨q, hq, hclsq⟩
    exact ⟨q, hq, hclsq, (solver.classMutating_pos hclsq).1, (solver.classMutating_pos hclsq).2⟩
  have happc : ∀ a ∈ plan.appearing, ∃ q ∈ solver.positions W H,
      (solver.classDstUn (solver.classify ops q.1 q.2 (src.get q.1 q.2) (dst.get q.1 q.2))).isSome
        ∧ a.x = q.1 ∧ a.y = q.2 := by
    intro a ha
    have ha' : a ∈ (solver.solve_unmatched ops uninit
        ((solver.positions W H).filterMap (fun q =>
          solver.classSrcUn (solver.classify ops q.1 q.2 (src.get q.1 q.2) (dst.get q.1 q.2))))
        ((solver.positions W H).filterMap (fun q =>
          solver.classDstUn (solver.classify ops q.1 q.2 (src.get q.1 q.2) (dst.get q.1 q.2))))
        w).2.1 := ha
    rcases solver.mem_solve_appearing ha' with ⟨e, he, hex, hey⟩
    rcases List.mem_filterMap.mp he with ⟨q, hq, hclsq⟩
    have hco := solver.classDstUn_pos hclsq
    refine ⟨q, hq, ?_, ?_, ?_⟩
    · rw [hclsq]
      rfl
    · rw [hex, hco.1]
    · rw [hey, hco.2]
  have hdisapc : ∀ a ∈ plan.disappearing, ∃ q ∈ solver.positions W H,
      (solver.classSrcUn (solver.classify ops q.1 q.2 (src.get q.1 q.2) (dst.get q.1 q.2))).isSome
        ∧ a.x = q.1 ∧ a.y = q.2 := by
    intro a ha
    have ha' : a ∈ (solver.solve_unmatched ops uninit
        ((solver.positions W H).filterMap (fun q =>
          solver.classSrcUn (solver.classify ops q.1 q.2 (src.get q.1 q.2) (dst.get q.1 q.2))))
        ((solver.positions W H).filterMap (fun q =>
          solver.classDstUn (solver.classify ops q.1 q.2 (src.get q.1 q.2) (dst.get q.1 q.2))))
        w).2.2 := ha
    rcases solver.mem_solve_disappearing ha' with ⟨e, he, hex, hey⟩
    rcases List.mem_filterMap.mp he with ⟨q, hq, hclsq⟩
    have hco := solver.classSrcUn_pos hclsq
    refine ⟨q, hq, ?_, ?_, ?_⟩
    · rw [hclsq]
      rfl
    · rw [hex, hco.1]
    · rw [hey, hco.2]
  have hdispc : ∀ a ∈ plan.displaced, ∃ q ∈ solver.positions W H,
      (solver.classDstUn (solver.classify ops q.1 q.2 (src.get q.1 q.2) (dst.get q.1 q.2))).isSome
        ∧ a.dst_x = q.1 ∧ a.dst_y = q.2 := by
    intro a ha
    have ha' : a ∈ (solver.solve_unmatched ops uninit
        ((solver.positions W H).filterMap (fun q =>
          solver.classSrcUn (solver.classify ops q.1 q.2 (src.get q.1 q.2) (dst.get q.1 q.2))))
        ((solver.positions W H).filterMap (fun q =>
          solver.classDstUn (solver.classify ops q.1 q.2 (src.get q.1 q.2) (dst.get q.1 q.2))))
        w).1 := ha
    rcases solver.mem_solve_displaced ha' with ⟨e, he, hex, hey⟩
    rcases List.mem_filterMap.mp he with ⟨q, hq, hclsq⟩
    have hco := solver.classDstUn_pos hclsq
    refine ⟨q, hq, ?_, ?_, ?_⟩
    · rw [hclsq]
      rfl
    · rw [hex, hco.1]
    · rw [hey, hco.2]
  refine ⟨?_, ?_⟩
  · intro st hst
    have hsome : (solver.classStable
        (solver.classify ops x y (src.get x y) (dst.get x y))).isSome := by
      rw [hst]
      rfl
    obtain ⟨hmut0, hsrc0, hdst0⟩ := solver.stable_excl hsome
    have hne_mut : ∀ q : ℕ × ℕ,
        (solver.classMutating
          (solver.classify ops q.1 q.2 (src.get q.1 q.2) (dst.get q.1 q.2))).isSome →
        (x, y) ≠ (q.1, q.2) := by
      intro q hq hqe
      have hq' : q = (x, y) := hqe.symm
      subst hq'
      dsimp only at hq
      rw [hmut0] at hq
      simp at hq
    have hne_srcUn : ∀ q : ℕ × ℕ,
        (solver.classSrcUn
          (solver.classify ops q.1 q.2 (src.get q.1 q.2) (dst.get q.1 q.2))).isSome →
        (x, y) ≠ (q.1, q.2) := by
      intro q hq hqe
      have hq' : q = (x, y) := hqe.symm
      subst hq'
      dsimp only at hq
      rw [hsrc0] at hq
      simp at hq
    have hne_dstUn : ∀ q : ℕ × ℕ,
        (solver.classDstUn
          (solver.classify ops q.1 q.2 (src.get q.1 q.2) (dst.get q.1 q.2))).isSome →
        (x, y) ≠ (q.1, q.2) := by
      intro q hq hqe
      have hq' : q = (x, y) := hqe.symm
      subst hq'
      dsimp only at hq
      rw [hdst0] at hq
      simp at hq
    have hcoMut : ∀ a ∈ plan.mutating, a.x < W ∧ (x, y) ≠ (a.x, a.y) := by
      intro a ha
      rcases hmutc a ha with ⟨q, hq, hclsq, hax, hay⟩
      refine ⟨?_, ?_⟩
      · rw [hax]
        exact (solver.mem_positions.mp hq).1
      · rw [hax, hay]
        exact hne_mut q (by rw [hclsq]; rfl)
    have hcoApp : ∀ a ∈ plan.appearing, a.x < W ∧ (x, y) ≠ (a.x, a.y) := by
      intro a ha
      rcases happc a ha with ⟨q, hq, hqs, hax, hay⟩
      refine ⟨?_, ?_⟩
      · rw [hax]
        exact (solver.mem_positions.mp hq).1
      · rw [hax, hay]
        exact hne_dstUn q hqs
    have hcoDisap : ∀ a ∈ plan.disappearing, a.x < W ∧ (x, y) ≠ (a.x, a.y) := by
      intro a ha
      rcases hdisapc a ha with ⟨q, hq, hqs, hax, hay⟩
      refine ⟨?_, ?_⟩
      · rw [hax]
        exact (solver.mem_positions.mp hq).1
      · rw [hax, hay]
        exact hne_srcUn q hqs
    have hcoDisp : ∀ a ∈ plan.displaced,
        (x, y) ≠ (interpolate.lerp_pos a.src_x a.dst_x 1, interpolate.lerp_pos a.src_y a.dst_y 1) := by
      intro a ha
      rcases hdispc a ha with ⟨q, hq, hqs, hax, hay⟩
      have hq1 : q.1 < W := (solver.mem_positions.mp hq).1
      have hq2 : q.2 < H := (solver.mem_positions.mp hq).2
      have hlx : interpolate.lerp_pos a.src_x a.dst_x 1 = q.1 := by
        rw [hax]
        exact interpolate.lerp_pos_one _ _ (by omega)
      have hly : interpolate.lerp_pos a.src_y a.dst_y 1 = q.2 := by
        rw [hay]
        exact interpolate.lerp_pos_one _ _ (by omega)
      rw [hlx, hly]
      exact hne_dstUn q hqs
    have hb1 : dimsWf W H (interpolate.render_stable plan (Buffer.empty plan.width plan.height)) :=
      interpolate.render_stable_dimsWf plan _ (dimsWf_empty W H)
    have hb2 : dimsWf W H (interpolate.render_mutating ops plan 1
        (interpolate.render_stable plan (Buffer.empty plan.width plan.height))) :=
      interpolate.render_mutating_dimsWf ops plan 1 _ hb1
    have hb3 : dimsWf W H (interpolate.render_displaced ops plan 1
        (interpolate.render_mutating ops plan 1
          (interpolate.render_stable plan (Buffer.empty plan.width plan.height)))) :=
      interpolate.render_displaced_dimsWf ops plan 1 _ hb2
    have hb4 : dimsWf W H (interpolate.render_appearing ops plan 1
        (interpolate.render_displaced ops plan 1
          (interpolate.render_mutating ops plan 1
            (interpolate.render_stable plan (Buffer.empty plan.width plan.height))))) :=
      interpolate.render_appearing_dimsWf ops plan 1 _ hb3
    have hchain : (interpolate.render ops plan 1).get x y =
        (interpolate.render_stable plan (Buffer.empty plan.width plan.height)).get x y := by
      unfold interpolate.render
      dsimp only
      rw [interpolate.render_disappearing_untouched ops W H plan 1 x y hx hcoDisap _ hb4,
          interpolate.render_appearing_untouched ops W H plan 1 x y hx hcoApp _ hb3,
          interpolate.render_displaced_untouched ops W H plan 1 x y hx rfl hcoDisp _ hb2,
          interpolate.render_mutating_untouched ops W H plan 1 x y hx hcoMut _ hb1]
    rw [hchain]
    unfold interpolate.render_stable
    refine foldl_get_single_writer (dimsWf W H) interpolate.render_stable_step plan.stable
      (Buffer.empty plan.width plan.height) x y st (dst.get x y)
      (dimsWf_empty W H) (fun b a _ hb => dimsWf_set W H b a.x a.y _ hb) ?_ ?_ ?_
    · rw [hplan, solver.diff_stable_eq]
      exact List.mem_filterMap.mpr ⟨(x, y), solver.mem_positions.mpr ⟨hx, hy⟩, hst⟩
    · intro b hb
      have hxy := solver.classStable_pos hst
      show (b.set st.x st.y _).get x y = dst.get x y
      rw [hxy.1, hxy.2, Buffer.get_set_self b x y _ hb.2.2 (hb.1 ▸ hx) (hb.2.1 ▸ hy)]
      obtain ⟨e1, e2, e3, e4⟩ := solver.classStable_dst hst
      rw [e1, e2, e3, e4]
    · intro b a ha hne hb
      rcases hstc a ha with ⟨q, hq, hclsq, hax, hay⟩
      have hqa : (x, y) ≠ (q.1, q.2) := by
        intro hqe
        have hq' : q = (x, y) := hqe.symm
        subst hq'
        dsimp only at hclsq
        rw [hst] at hclsq
        exact hne (Option.some_inj.mp hclsq).symm
      show (b.set a.x a.y _).get x y = b.get x y
      refine Buffer.get_set_ne b a.x a.y x y _ (hb.1 ▸ hx) ?_ ?_
      · rw [hax]
        exact hb.1 ▸ (solver.mem_positions.mp hq).1
      · rw [hax, hay]
        exact hqa
  · intro mc hmc
    have hsome : (solver.classMutating
        (solver.classify ops x y (src.get x y) (dst.get x y))).isSome := by
      rw [hmc]
      rfl
    obtain ⟨hstab0, hsrc0, hdst0⟩ := solver.mutating_excl hsome
    have hne_srcUn : ∀ q : ℕ × ℕ,
        (solver.classSrcUn
          (solver.classify ops q.1 q.2 (src.get q.1 q.2) (dst.get q.1 q.2))).isSome →
        (x, y) ≠ (q.1, q.2) := by
      intro q hq hqe
      have hq' : q = (x, y) := hqe.symm
      subst hq'
      dsimp only at hq
      rw [hsrc0] at hq
      simp at hq
    have hne_dstUn : ∀ q : ℕ × ℕ,
        (solver.classDstUn
          (solver.classify ops q.1 q.2 (src.get q.1 q.2) (dst.get q.1 q.2))).isSome →
        (x, y) ≠ (q.1, q.2) := by
      intro q hq hqe
      have hq' : q = (x, y) := hqe.symm
      subst hq'
      dsimp only at hq
      rw [hdst0] at hq
      simp at hq
    have hcoApp : ∀ a ∈ plan.appearing, a.x < W ∧ (x, y) ≠ (a.x, a.y) := by
      intro a ha
      rcases happc a ha with ⟨q, hq, hqs, hax, hay⟩
      refine ⟨?_, ?_⟩
      · rw [hax]
        exact (solver.mem_positions.mp hq).1
      · rw [hax, hay]
        exact hne_dstUn q hqs
    have hcoDisap : ∀ a ∈ plan.disappearing, a.x < W ∧ (x, y) ≠ (a.x, a.y) := by
      intro a ha
      rcases hdisapc a ha with ⟨q, hq, hqs, hax, hay⟩
      refine ⟨?_, ?_⟩
      · rw [hax]
        exact (solver.mem_positions.mp hq).1
      · rw [hax, hay]
        exact hne_srcUn q hqs
    have hcoDisp : ∀ a ∈ plan.displaced,
        (x, y) ≠ (interpolate.lerp_pos a.src_x a.dst_x 1, interpolate.lerp_pos a.src_y a.dst_y 1) := by
      intro a ha
      rcases hdispc a ha with ⟨q, hq, hqs, hax, hay⟩
      have hq1 : q.1 < W := (solver.mem_positions.mp hq).1
      have hq2 : q.2 < H := (solver.mem_positions.mp hq).2
      have hlx : interpolate.lerp_pos a.src_x a.dst_x 1 = q.1 := by
        rw [hax]
        exact interpolate.lerp_pos_one _ _ (by omega)
      have hly : interpolate.lerp_pos a.src_y a.dst_y 1 = q.2 := by
        rw [hay]
        exact interpolate.lerp_pos_one _ _ (by omega)
      rw [hlx, hly]
      exact hne_dstUn q hqs
    have hb1 : dimsWf W H (interpolate.render_stable plan (Buffer.empty plan.width plan.height)) :=
      interpolate.render_stable_dimsWf plan _ (dimsWf_empty W H)
    have hb2 : dimsWf W H (interpolate.render_mutating ops plan 1
        (interpolate.render_stable plan (Buffer.empty plan.width plan.height))) :=
      interpolate.render_mutating_dimsWf ops plan 1 _ hb1
    have hb3 : dimsWf W H (interpolate.render_displaced ops plan 1
        (interpolate.render_mutating ops plan 1
          (interpolate.render_stable plan (Buffer.empty plan.width plan.height)))) :=
      interpolate.render_displaced_dimsWf ops plan 1 _ hb2
    have hb4 : dimsWf W H (interpolate.render_appearing ops plan 1
        (interpolate.render_displaced ops plan 1
          (interpolate.render_mutating ops plan 1
            (interpolate.render_stable plan (Buffer.empty plan.width plan.height))))) :=
      interpolate.render_appearing_dimsWf ops plan 1 _ hb3
    have hval : (interpolate.render ops plan 1).get x y =
        ({ symbol := interpolate.pick_symbol mc.src_symbol mc.dst_symbol mc.src_fg 1,
           fg := interpolate.lerp_color ops mc.src_fg mc.dst_fg 1,
           bg := interpolate.lerp_color ops mc.src_bg mc.dst_bg 1,
           modifier := mc.dst_modifier } : Cell) := by
      unfold interpolate.render
      dsimp only
      rw [interpolate.render_disappearing_untouched ops W H plan 1 x y hx hcoDisap _ hb4,
          interpolate.render_appearing_untouched ops W H plan 1 x y hx hcoApp _ hb3,
          interpolate.render_displaced_untouched ops W H plan 1 x y hx rfl hcoDisp _ hb2]
      unfold interpolate.render_mutating
      refine foldl_get_single_writer (dimsWf W H) (interpolate.render_mutating_step ops 1)
        plan.mutating _ x y mc _ hb1
        (fun b a _ hb => dimsWf_set W H b a.x a.y _ hb) ?_ ?_ ?_
      · rw [hplan, solver.diff_mutating_eq]
        exact List.mem_filterMap.mpr ⟨(x, y), solver.mem_positions.mpr ⟨hx, hy⟩, hmc⟩
      · intro b hb
        have hxy := solver.classMutating_pos hmc
        show (b.set mc.x mc.y _).get x y = _
        rw [hxy.1, hxy.2, Buffer.get_set_self b x y _ hb.2.2 (hb.1 ▸ hx) (hb.2.1 ▸ hy)]
        rw [if_neg (by norm_num : ¬((1 : ℚ) < 0.5))]
      · intro b a ha hne hb
        rcases hmutc a ha with ⟨q, hq, hclsq, hax, hay⟩
        have hqa : (x, y) ≠ (q.1, q.2) := by
          intro hqe
          have hq' : q = (x, y) := hqe.symm
          subst hq'
          dsimp only at hclsq
          rw [hmc] at hclsq
          exact hne (Option.some_inj.mp hclsq).symm
        show (b.set a.x a.y _).get x y = b.get x y
        refine Buffer.get_set_ne b a.x a.y x y _ (hb.1 ▸ hx) ?_ ?_
        · rw [hax]
          exact hb.1 ▸ (solver.mem_positions.mp hq).1
        · rw [hax, hay]
          exact hqa
    obtain ⟨f1, f2, f3, f4, f5, f6⟩ := solver.classMutating_fields hmc
    refine ⟨?_, ?_, ?_, ?_⟩
    · rw [hval]
      show interpolate.pick_symbol mc.src_symbol mc.dst_symbol mc.src_fg 1 = (dst.get x y).symbol
      rw [interpolate.pick_symbol_one, f1]
    · rw [hval]
      show mc.dst_modifier = (dst.get x y).modifier
      rw [f2]
    · intro hn
      rw [hval]
      show interpolate.lerp_color ops mc.src_fg mc.dst_fg 1 = (dst.get x y).fg
      have hnn : mc.src_fg.oklch = none ∨ mc.dst_fg.oklch = none := by
        rcases hn with hn | hn
        · left
          rw [f3]
          exact hn
        · right
          rw [f4]
          exact hn
      rw [interpolate.lerp_color_one_raw ops _ _ hnn, f4]
      rfl
    · intro hn
      rw [hval]
      show interpolate.lerp_color ops mc.src_bg mc.dst_bg 1 = (dst.get x y).bg
      have hnn : mc.src_bg.oklch = none ∨ mc.dst_bg.oklch = none := by
        rcases hn with hn | hn
        · left
          rw [f5]
          exact hn
        · right
          rw [f6]
          exact hn
      rw [interpolate.lerp_color_one_raw ops _ _ hnn, f6]
      rfl

/-- **C2, counterexample to the original claim**: for the 1×1 transition
`"X"` Red → `"X"` Blue (a Mutating cell with two Oklch-interpolable
foregrounds), `render(plan, 1)` does NOT equal `dst` cell for cell — the
foreground is an Rgb round-trip through Oklch, not `Color::Blue`. -/
theorem C2_render_at_one_counterexample :
    ((interpolate.render ops0
        (solver.diff ops0 uninit0 (make_buffer 1 1 [((0, 0), "X", .Red)])
          (make_buffer 1 1 [((0, 0), "X", .Blue)]) .LIQUID) 1).get 0 0).fg
      ≠ ((make_buffer 1 1 [((0, 0), "X", .Blue)]).get 0 0).fg ∧
    ((make_buffer 1 1 [((0, 0), "X", .Blue)]).get 0 0).fg = Color.Blue ∧
    (interpolate.render ops0
        (solver.diff ops0 uninit0 (make_buffer 1 1 [((0, 0), "X", .Red)])
          (make_buffer 1 1 [((0, 0), "X", .Blue)]) .LIQUID) 1).get 0 0
      ≠ (make_buffer 1 1 [((0, 0), "X", .Blue)]).get 0 0 := by
  refine ⟨by decide, by decide, by decide⟩

/-- Placeholder stable cell for witness-side `Option.getD` reads. -/
def dfltStable : StableCell :=
  { x := 0, y := 0, symbol := "", fg := .Reset, bg := .Reset, modifier := 0 }

/-- Placeholder mutating cell for witness-side `Option.getD` reads. -/
def dfltMutating : MutatingCell :=
  { x := 0, y := 0, src_symbol := "", dst_symbol := "", src_fg := uninit0, dst_fg := uninit0
    src_bg := uninit0, dst_bg := uninit0, src_modifier := 0, dst_modifier := 0 }

/-- **C2 (amended), witness**: the source test pair (`at_one_matches_target`,
3×1 "A"/"B" → "X"/"Y"): position (2,0) is Stable and renders exactly as dst;
position (0,0) is Mutating and renders dst's symbol and modifier at t = 1. -/
theorem C2_render_at_one_amended_witness :
    ((make_buffer 3 1 [((0, 0), "X", .Green), ((1, 0), "Y", .White)]).width =
        (make_buffer 3 1 [((0, 0), "A", .Red), ((1, 0), "B", .Blue)]).width ∧
      (make_buffer 3 1 [((0, 0), "X", .Green), ((1, 0), "Y", .White)]).height =
        (make_buffer 3 1 [((0, 0), "A", .Red), ((1, 0), "B", .Blue)]).height ∧
      (make_buffer 3 1 [((0, 0), "A", .Red), ((1, 0), "B", .Blue)]).width ≤ 65536 ∧
      (make_buffer 3 1 [((0, 0), "A", .Red), ((1, 0), "B", .Blue)]).height ≤ 65536 ∧
      2 < (make_buffer 3 1 [((0, 0), "A", .Red), ((1, 0), "B", .Blue)]).width ∧
      0 < (make_buffer 3 1 [((0, 0), "A", .Red), ((1, 0), "B", .Blue)]).height) ∧
    (interpolate.render ops0
        (solver.diff ops0 uninit0 (make_buffer 3 1 [((0, 0), "A", .Red), ((1, 0), "B", .Blue)])
          (make_buffer 3 1 [((0, 0), "X", .Green), ((1, 0), "Y", .White)]) .CRISP) 1).get 2 0 =
      (make_buffer 3 1 [((0, 0), "X", .Green), ((1, 0), "Y", .White)]).get 2 0 ∧
    ((interpolate.render ops0
        (solver.diff ops0 uninit0 (make_buffer 3 1 [((0, 0), "A", .Red), ((1, 0), "B", .Blue)])
          (make_buffer 3 1 [((0, 0), "X", .Green), ((1, 0), "Y", .White)]) .CRISP) 1).get 0 0).symbol =
      ((make_buffer 3 1 [((0, 0), "X", .Green), ((1, 0), "Y", .White)]).get 0 0).symbol ∧
    ((interpolate.render ops0
        (solver.diff ops0 uninit0 (make_buffer 3 1 [((0, 0), "A", .Red), ((1, 0), "B", .Blue)])
          (make_buffer 3 1 [((0, 0), "X", .Green), ((1, 0), "Y", .White)]) .CRISP) 1).get 0 0).modifier =
      ((make_buffer 3 1 [((0, 0), "X", .Green), ((1, 0), "Y", .White)]).get 0 0).modifier :=
  ⟨⟨rfl, rfl, by decide, by decide, by decide, by decide⟩,
    (C2_render_at_one_amended ops0 uninit0 .CRISP
      (make_buffer 3 1 [((0, 0), "A", .Red), ((1, 0), "B", .Blue)])
      (make_buffer 3 1 [((0, 0), "X", .Green), ((1, 0), "Y", .White)])
      rfl rfl (by decide) (by decide) 2 0 (by decide) (by decide)).1
      ((solver.classStable (solver.classify ops0 2 0
        ((make_buffer 3 1 [((0, 0), "A", .Red), ((1, 0), "B", .Blue)]).get 2 0)
        ((make_buffer 3 1 [((0, 0), "X", .Green), ((1, 0), "Y", .White)]).get 2 0))).getD dfltStable)
      rfl,
    ((C2_render_at_one_amended ops0 uninit0 .CRISP
      (make_buffer 3 1 [((0, 0), "A", .Red), ((1, 0), "B", .Blue)])
      (make_buffer 3 1 [((0, 0), "X", .Green), ((1, 0), "Y", .White)])
      rfl rfl (by decide) (by decide) 0 0 (by decide) (by decide)).2
      ((solver.classMutating (solver.classify ops0 0 0
        ((make_buffer 3 1 [((0, 0), "A", .Red), ((1, 0), "B", .Blue)]).get 0 0)
        ((make_buffer 3 1 [((0, 0), "X", .Green), ((1, 0), "Y", .White)]).get 0 0))).getD dfltMutating)
      rfl).1,
    (((C2_render_at_one_amended ops0 uninit0 .CRISP
      (make_buffer 3 1 [((0, 0), "A", .Red), ((1, 0), "B", .Blue)])
      (make_buffer 3 1 [((0, 0), "X", .Green), ((1, 0), "Y", .White)])
      rfl rfl (by decide) (by decide) 0 0 (by decide) (by decide)).2
      ((solver.classMutating (solver.classify ops0 0 0
        ((make_buffer 3 1 [((0, 0), "A", .Red), ((1, 0), "B", .Blue)]).get 0 0)
        ((make_buffer 3 1 [((0, 0), "X", .Green), ((1, 0), "Y", .White)]).get 0 0))).getD dfltMutating)
      rfl).2).1⟩
